import Mathlib

/-!
KickOff backend: session and token lifecycle.

A shallow embedding of the authentication subsystem of the football-app backend:

* `src/utils/ApiResponse.js`
* `src/services/TokenBlacklistService.js`
* `src/middleware/authenticateToken.js`
* `src/controllers/AuthController.js`
* `src/services/AuthService.js`

Time is a natural number of seconds. The collaborators that live outside the
sources (the Redis client, the `jsonwebtoken` library, the Mongoose user
collection, bcrypt) are given explicit reference models below; everything else
is translated function by function from the JavaScript.
-/

set_option autoImplicit false

namespace KickOff

/-! ## JavaScript values -/

deriving instance DecidableEq for Except

/-- A thrown JavaScript error: its `name` and its `message`. -/
structure JsError where
  name : String
  message : String
  deriving DecidableEq, Repr

/-- The error built by `new Error(message)`. -/
def JsError.plain (message : String) : JsError :=
  { name := "Error", message := message }

/-- JavaScript truthiness of a value that is `undefined` or a string. -/
def truthy : Option String → Bool
  | none => false
  | some s => s ≠ ""

/-- The pieces of `cs.split(' ')`, on character lists. -/
def splitSpaceChars : List Char → List (List Char)
  | [] => [[]]
  | c :: cs =>
    match splitSpaceChars cs with
    | [] => [[]]
    | w :: ws => if c = ' ' then [] :: w :: ws else (c :: w) :: ws

/-- JavaScript `s.split(' ')`. -/
def splitSpace (s : String) : List String :=
  (splitSpaceChars s.data).map String.mk

/-! ## `src/utils/ApiResponse.js` -/

/-- The pair returned by `AuthService.generateTokenPair`. -/
structure TokenPair where
  accessToken : String
  refreshToken : String
  deriving DecidableEq, Repr

/-- The `user` object returned by `AuthService.register` and `AuthService.login`. -/
structure UserView where
  _id : String
  name : Option String
  email : String
  role : Option String
  isVerified : Bool
  deriving DecidableEq, Repr

/-- The result of `AuthService.register` and `AuthService.login`: `{ user, tokens }`. -/
structure AuthResult where
  user : UserView
  tokens : TokenPair
  deriving DecidableEq, Repr

/-- The `data` member of a success body. -/
inductive Payload where
  | null
  | tokens (pair : TokenPair)
  | auth (result : AuthResult)
  deriving DecidableEq, Repr

/-- The object built by `ApiResponse.success` or `ApiResponse.error`. -/
inductive ApiBody where
  | success (message : String) (data : Payload)
  | error (message : String) (errors : List String) (statusCode : Nat)
  deriving DecidableEq, Repr

/-- `ApiResponse.success(data, message)`; `meta` is always the empty object. -/
def ApiResponse.success (data : Payload) (message : String) : ApiBody :=
  ApiBody.success message data

/-- `ApiResponse.error(message)` with the defaults `errors = []`, `statusCode = 500`. -/
def ApiResponse.error (message : String) : ApiBody :=
  ApiBody.error message [] 500

/-- What `res.status(code).json(body)` sends. -/
structure HttpResponse where
  status : Nat
  body : ApiBody
  deriving DecidableEq, Repr

/-! ## The Redis client (`config/redis`) -/

/-- One key of the store: its value and the second at which it expires. -/
structure RedisEntry where
  key : String
  value : String
  expiresAt : Nat
  deriving DecidableEq, Repr

/-- The state of the Redis server as seen through the client. `up = false` is a
store that cannot be reached: every command then rejects. -/
structure Redis where
  up : Bool
  entries : List RedisEntry
  deriving DecidableEq, Repr

/-- The error a command rejects with when the store cannot be reached. -/
def redisDown : JsError :=
  { name := "Error", message := "Connection is closed." }

/-- Modelled from the spec: the Redis client exported by `config/redis`, which is
not among the sources. `redis.set(key, value, 'EX', ttl)` follows the Revocation
Store's `revoke`: "inserts the token (or its hash) with an expiry now + ttl",
replacing any earlier entry under the same key. -/
def Redis.set (r : Redis) (now : Nat) (key value : String) (ttl : Nat) :
    Except JsError Redis :=
  if r.up then
    .ok { r with entries :=
      { key := key, value := value, expiresAt := now + ttl } ::
        r.entries.filter (fun e => e.key ≠ key) }
  else .error redisDown

/-- Modelled from the spec: the Redis client exported by `config/redis`, which is
not among the sources. `redis.get(key)` follows the Revocation Store's
`isRevoked`: the value is returned "iff an entry exists and has not yet expired",
otherwise `null`. -/
def Redis.get (r : Redis) (now : Nat) (key : String) : Except JsError (Option String) :=
  if r.up then
    match r.entries.find? (fun e => e.key = key) with
    | some e => if now < e.expiresAt then .ok (some e.value) else .ok none
    | none => .ok none
  else .error redisDown

/-! ## `src/services/TokenBlacklistService.js` -/

/-- The Redis key of a token: the template string that starts with `blacklist:`. -/
def blacklistKey (token : String) : String :=
  "blacklist:" ++ token

/-- `TokenBlacklistService.add(token, ttlSeconds = 900)`. An `undefined`
`ttlSeconds` takes the default. The value `true` is stored as the string
`"true"`. -/
def TokenBlacklistService.add (r : Redis) (now : Nat) (token : Option String)
    (ttlSeconds : Option Nat) : Except JsError Redis :=
  match token with
  | none => .ok r
  | some t =>
    if t = "" then .ok r
    else r.set now (blacklistKey t) "true" (ttlSeconds.getD 900)

/-- `TokenBlacklistService.isBlacklisted(token)`. -/
def TokenBlacklistService.isBlacklisted (r : Redis) (now : Nat) (token : Option String) :
    Except JsError Bool :=
  match token with
  | none => .ok false
  | some t =>
    if t = "" then .ok false
    else
      match r.get now (blacklistKey t) with
      | .ok result => .ok (truthy result)
      | .error e => .error e

/-! ## The `jsonwebtoken` library

A reference model of the library: a token is a string that carries the claims
`sub`, `role`, `iat`, `exp` and a signature. The signature of the model is the
signing key itself, so a token verifies under a secret exactly when it was
signed with that secret. Every number is written as its decimal digits, least
significant first, closed by a dot; a string is its length followed by the code
points of its characters. -/

/-- The character of a decimal digit. -/
def digitChar (d : Nat) : Char := Char.ofNat (48 + d)

/-- The value of a decimal digit character. -/
def charDigit (c : Char) : Option Nat :=
  if 48 ≤ c.toNat ∧ c.toNat ≤ 57 then some (c.toNat - 48) else none

/-- Digits of `n`, least significant first, closed by a dot; `fuel` bounds the
number of digits. -/
def encNatAux : Nat → Nat → List Char
  | 0, _ => ['.']
  | fuel + 1, n => if n = 0 then ['.'] else digitChar (n % 10) :: encNatAux fuel (n / 10)

/-- The wire form of a number. -/
def encNat (n : Nat) : List Char := encNatAux n n

/-- Reads a number written by `encNat` and returns it with the rest of the input. -/
def decNat : List Char → Option (Nat × List Char)
  | [] => none
  | c :: cs =>
    if c = '.' then some (0, cs)
    else
      match charDigit c, decNat cs with
      | some d, some (n, rest) => some (d + 10 * n, rest)
      | _, _ => none

/-- The code points of the characters, one number each. -/
def encChars : List Char → List Char
  | [] => []
  | c :: cs => encNat c.toNat ++ encChars cs

/-- Reads `k` characters written by `encChars`. -/
def decChars : Nat → List Char → Option (List Char × List Char)
  | 0, inp => some ([], inp)
  | k + 1, inp =>
    match decNat inp with
    | none => none
    | some (code, rest) =>
      match decChars k rest with
      | none => none
      | some (cs, rest') => some (Char.ofNat code :: cs, rest')

/-- The wire form of a string: its length, then its characters. -/
def encStr (s : String) : List Char := encNat s.length ++ encChars s.data

/-- Reads a string written by `encStr`. -/
def decStr (inp : List Char) : Option (String × List Char) :=
  match decNat inp with
  | none => none
  | some (k, rest) =>
    match decChars k rest with
    | none => none
    | some (cs, rest') => some (String.mk cs, rest')

/-- The wire form of a member that may be `undefined`. -/
def encOptStr : Option String → List Char
  | none => encNat 0
  | some s => encNat 1 ++ encStr s

/-- Reads a member written by `encOptStr`. -/
def decOptStr (inp : List Char) : Option (Option String × List Char) :=
  match decNat inp with
  | none => none
  | some (0, rest) => some (none, rest)
  | some (_ + 1, rest) =>
    match decStr rest with
    | none => none
    | some (s, rest') => some (some s, rest')

/-- The object handed to `jwt.sign`: `{ sub, role }`. An `undefined` role is
left out of the token. -/
structure JwtPayload where
  sub : String
  role : Option String
  deriving DecidableEq, Repr

/-- The decoded claims that `jwt.verify` returns. -/
structure Claims where
  sub : String
  role : Option String
  iat : Nat
  exp : Nat
  deriving DecidableEq, Repr

/-- The content of a token: its claims and the key it was signed with. -/
structure SignedJwt where
  claims : Claims
  key : String
  deriving DecidableEq, Repr

/-- The token string of a signed content. -/
def SignedJwt.encode (t : SignedJwt) : String :=
  String.mk (encStr t.claims.sub ++ encOptStr t.claims.role ++ encNat t.claims.iat ++
    encNat t.claims.exp ++ encStr t.key)

/-- Parses a token string; `none` when it is not well formed. -/
def SignedJwt.decode (token : String) : Option SignedJwt :=
  match decStr token.data with
  | none => none
  | some (sub, r1) =>
    match decOptStr r1 with
    | none => none
    | some (role, r2) =>
      match decNat r2 with
      | none => none
      | some (iat, r3) =>
        match decNat r3 with
        | none => none
        | some (exp, r4) =>
          match decStr r4 with
          | some (key, []) =>
            some { claims := { sub := sub, role := role, iat := iat, exp := exp }, key := key }
          | _ => none

/-- Reads decimal digits, most significant first, onto `acc`. -/
def parseDigits : List Char → Nat → Option Nat
  | [], acc => some acc
  | c :: cs, acc =>
    match charDigit c with
    | some d => parseDigits cs (acc * 10 + d)
    | none => none

/-- The `ms` package on the spans used here: digits followed by one of the
units `s`, `m`, `h`, `d`; the result is in milliseconds. -/
def ms (span : String) : Option Nat :=
  match span.data.getLast? with
  | none => none
  | some u =>
    let ds := span.data.dropLast
    if ds = [] then none
    else
      match parseDigits ds 0 with
      | none => none
      | some n =>
        if u = 's' then some (n * 1000)
        else if u = 'm' then some (n * 60000)
        else if u = 'h' then some (n * 3600000)
        else if u = 'd' then some (n * 86400000)
        else none

/-- The `timespan` helper of `jsonwebtoken`: the second at which a token issued
at `iat` with the option `expiresIn` expires. -/
def timespan (expiresIn : String) (iat : Nat) : Option Nat :=
  match ms expiresIn with
  | none => none
  | some millis => some (iat + millis / 1000)

/-- `jwt.sign(payload, secret, { expiresIn })` at the second `now`. -/
def jwt.sign (now : Nat) (payload : JwtPayload) (secret : Option String)
    (expiresIn : String) : Except JsError String :=
  match timespan expiresIn now with
  | none =>
    .error (JsError.plain
      "\"expiresIn\" should be a number of seconds or string representing a timespan eg: \"1d\", \"20h\", 60")
  | some exp =>
    if truthy secret then
      .ok (SignedJwt.encode
        { claims := { sub := payload.sub, role := payload.role, iat := now, exp := exp },
          key := secret.getD "" })
    else .error (JsError.plain "secretOrPrivateKey must have a value")

/-- The error of an expired token. -/
def TokenExpiredError : JsError :=
  { name := "TokenExpiredError", message := "jwt expired" }

/-- The error of a token that is malformed or wrongly signed. -/
def JsonWebTokenError (message : String) : JsError :=
  { name := "JsonWebTokenError", message := message }

/-- `jwt.verify(token, secret)` at the second `now`: structure first, then the
signature, then the expiry (a token is expired from the second `exp` on). -/
def jwt.verify (now : Nat) (token : String) (secret : Option String) :
    Except JsError Claims :=
  if token = "" then .error (JsonWebTokenError "jwt must be provided")
  else
    match SignedJwt.decode token with
    | none => .error (JsonWebTokenError "jwt malformed")
    | some t =>
      if !truthy secret then .error (JsonWebTokenError "secret or public key must be provided")
      else if some t.key ≠ secret then .error (JsonWebTokenError "invalid signature")
      else if now ≥ t.claims.exp then .error TokenExpiredError
      else .ok t.claims

/-! ## `src/middleware/authenticateToken.js` -/

/-- A call the gatekeeper makes to a collaborator. -/
inductive GateCall where
  | isBlacklisted (token : String)
  | jwtVerify (token : String)
  deriving DecidableEq, Repr

/-- What one run of a middleware leaves behind: the response it sent (if any),
whether it called `next`, the value of `req.user`, the error its promise
rejected with (if any), and the calls it made, in order. -/
structure GateResult where
  response : Option HttpResponse
  nextCalled : Bool
  user : Option Claims
  thrown : Option JsError
  calls : List GateCall
  deriving DecidableEq, Repr

/-- The expression `authHeader && authHeader.split(' ')[1]`. -/
def headerToken (authHeader : Option String) : Option String :=
  match authHeader with
  | none => none
  | some h => if h = "" then some "" else (splitSpace h)[1]?

/-- The middleware `authenticateToken(req, res, next)`, run at the second `now`
on a request whose `authorization` header is `authHeader` and whose `user` is
not yet set; `env` is `process.env.JWT_SECRET`. -/
def authenticateToken (env : Option String) (r : Redis) (now : Nat)
    (authHeader : Option String) : GateResult :=
  match headerToken authHeader with
  | none =>
    { response := some ⟨401, ApiResponse.error "Access token required"⟩,
      nextCalled := false, user := none, thrown := none, calls := [] }
  | some token =>
    if token = "" then
      { response := some ⟨401, ApiResponse.error "Access token required"⟩,
        nextCalled := false, user := none, thrown := none, calls := [] }
    else
      match TokenBlacklistService.isBlacklisted r now (some token) with
      | .error e =>
        { response := none, nextCalled := false, user := none, thrown := some e,
          calls := [.isBlacklisted token] }
      | .ok true =>
        { response := some ⟨401, ApiResponse.error "Token is invalid"⟩,
          nextCalled := false, user := none, thrown := none,
          calls := [.isBlacklisted token] }
      | .ok false =>
        match jwt.verify now token env with
        | .ok decoded =>
          { response := none, nextCalled := true, user := some decoded, thrown := none,
            calls := [.isBlacklisted token, .jwtVerify token] }
        | .error err =>
          { response := some ⟨403, ApiResponse.error
              (if err.name = "TokenExpiredError" then "Token has expired" else "Invalid token")⟩,
            nextCalled := false, user := none, thrown := none,
            calls := [.isBlacklisted token, .jwtVerify token] }

/-! ## The user collection (`src/models/User.js`) -/

/-- The `accountStatus` sub-document. -/
structure AccountStatus where
  isVerified : Bool
  isActive : Bool
  role : Option String
  deriving DecidableEq, Repr

/-- A user document, with the members the authentication service reads. -/
structure User where
  _id : String
  name : Option String
  email : String
  password : String
  role : Option String
  accountStatus : AccountStatus
  deriving DecidableEq, Repr

/-- `User.findOne({ email })` on the documents of the collection. -/
def User.findOne (db : List User) (email : String) : Option User :=
  db.find? (fun u => u.email = email)

/-- `User.findById(id)` on the documents of the collection. -/
def User.findById (db : List User) (id : String) : Option User :=
  db.find? (fun u => u._id = id)

/-! ## `src/services/AuthService.js` -/

/-- `const JWT_SECRET = process.env.JWT_SECRET || 'changeme'`. -/
def JWT_SECRET (env : Option String) : String :=
  if truthy env then env.getD "" else "changeme"

/-- `const JWT_EXPIRES_IN = '15m'`. -/
def JWT_EXPIRES_IN : String := "15m"

/-- `const REFRESH_EXPIRES_IN = '7d'`. -/
def REFRESH_EXPIRES_IN : String := "7d"

/-- `AuthService.generateTokenPair(user)` at the second `now`. -/
def AuthService.generateTokenPair (env : Option String) (now : Nat) (user : User) :
    Except JsError TokenPair :=
  let payload : JwtPayload := { sub := user._id, role := user.accountStatus.role }
  match jwt.sign now payload (some (JWT_SECRET env)) JWT_EXPIRES_IN with
  | .error e => .error e
  | .ok accessToken =>
    match jwt.sign now payload (some (JWT_SECRET env)) REFRESH_EXPIRES_IN with
    | .error e => .error e
    | .ok refreshToken => .ok { accessToken := accessToken, refreshToken := refreshToken }

/-- `AuthService.login({ email, password })`; `bcryptCompare` is `bcrypt.compare`. -/
def AuthService.login (env : Option String) (db : List User)
    (bcryptCompare : String → String → Bool) (now : Nat) (email password : String) :
    Except JsError AuthResult :=
  match User.findOne db email with
  | none => .error (JsError.plain "Invalid credentials")
  | some user =>
    if !user.accountStatus.isActive then .error (JsError.plain "Invalid credentials")
    else if !bcryptCompare password user.password then
      .error (JsError.plain "Invalid credentials")
    else
      match AuthService.generateTokenPair env now user with
      | .error e => .error e
      | .ok tokens =>
        .ok { user := { _id := user._id, name := user.name, email := user.email,
                        role := user.role, isVerified := user.accountStatus.isVerified },
              tokens := tokens }

/-- `AuthService.refreshToken(refreshToken)`: every error raised inside the
`try` is replaced by `new Error('Invalid token')`. -/
def AuthService.refreshToken (env : Option String) (db : List User) (now : Nat)
    (refreshToken : String) : Except JsError TokenPair :=
  match jwt.verify now refreshToken (some (JWT_SECRET env)) with
  | .error _ => .error (JsError.plain "Invalid token")
  | .ok decoded =>
    match User.findById db decoded.sub with
    | none => .error (JsError.plain "Invalid token")
    | some user =>
      if !user.accountStatus.isActive then .error (JsError.plain "Invalid token")
      else
        match AuthService.generateTokenPair env now user with
        | .error _ => .error (JsError.plain "Invalid token")
        | .ok tokens => .ok tokens

/-! ## `src/controllers/AuthController.js` -/

/-- What a controller leaves behind: the store, the response it sent and the
cookies it cleared. -/
structure ControllerResult where
  redis : Redis
  response : HttpResponse
  clearedCookies : List String
  deriving DecidableEq, Repr

/-- The expression `req.headers.authorization?.split(' ')[1]`. -/
def logoutToken (authorization : Option String) : Option String :=
  match authorization with
  | none => none
  | some h => (splitSpace h)[1]?

/-- `AuthController.login(req, res)` with `req.body = { email, password }`. -/
def AuthController.login (env : Option String) (db : List User)
    (bcryptCompare : String → String → Bool) (now : Nat) (email password : String) :
    HttpResponse :=
  match AuthService.login env db bcryptCompare now email password with
  | .ok result => ⟨200, ApiResponse.success (.auth result) "Login successful"⟩
  | .error error => ⟨401, ApiResponse.error error.message⟩

/-- `AuthController.logout(req, res)` at the second `now`. -/
def AuthController.logout (r : Redis) (now : Nat) (authorization : Option String) :
    ControllerResult :=
  let token := logoutToken authorization
  match (if truthy token then TokenBlacklistService.add r now token none else .ok r) with
  | .error error =>
    { redis := r, response := ⟨500, ApiResponse.error error.message⟩, clearedCookies := [] }
  | .ok r' =>
    { redis := r', response := ⟨200, ApiResponse.success .null "Logged out successfully"⟩,
      clearedCookies := ["refreshToken"] }

/-- `AuthController.refreshToken(req, res)` with `req.body = { refreshToken }`. -/
def AuthController.refreshToken (env : Option String) (db : List User) (now : Nat)
    (refreshToken : Option String) : HttpResponse :=
  match refreshToken with
  | none => ⟨400, ApiResponse.error "Refresh token is required"⟩
  | some t =>
    if t = "" then ⟨400, ApiResponse.error "Refresh token is required"⟩
    else
      match AuthService.refreshToken env db now t with
      | .ok tokens => ⟨200, ApiResponse.success (.tokens tokens) "Token refreshed successfully"⟩
      | .error error => ⟨401, ApiResponse.error error.message⟩

/-! ## Histories of the revocation store -/

/-- One call `TokenBlacklistService.add(token, ttlSeconds)` made at the second `time`. -/
structure AddCall where
  time : Nat
  token : Option String
  ttlSeconds : Option Nat
  deriving DecidableEq, Repr

/-- The store after one `add` call; a call that rejects leaves the store as it was. -/
def applyAdd (r : Redis) (c : AddCall) : Redis :=
  match TokenBlacklistService.add r c.time c.token c.ttlSeconds with
  | .ok r' => r'
  | .error _ => r

/-- The store after the `add` calls of a history, oldest first. -/
def runAdds (r : Redis) (history : List AddCall) : Redis :=
  history.foldl applyAdd r

/-- The most recent call of a history (oldest first) that was made for `token`. -/
def lastAdd (token : String) : List AddCall → Option AddCall
  | [] => none
  | c :: cs =>
    match lastAdd token cs with
    | some d => some d
    | none => if c.token = some token then some c else none

/-- One request handled by `AuthController.logout` at the second `time`. -/
structure LogoutRequest where
  time : Nat
  authorization : Option String
  deriving DecidableEq, Repr

/-- The store after the logout requests of a history, oldest first. -/
def runLogouts (r : Redis) (history : List LogoutRequest) : Redis :=
  history.foldl (fun s q => (AuthController.logout s q.time q.authorization).redis) r

/-! ## Sample data -/

/-- A reachable, empty store. -/
def emptyStore : Redis := { up := true, entries := [] }

/-- A store that cannot be reached. -/
def downStore : Redis := { up := false, entries := [] }

/-- An active user with the default role. -/
def sampleUser : User :=
  { _id := "u1", name := none, email := "a@x.com", password := "hash:Abcdef12", role := none,
    accountStatus := { isVerified := false, isActive := true, role := some "user" } }

/-- The same user, deactivated. -/
def inactiveUser : User :=
  { sampleUser with accountStatus := { isVerified := false, isActive := false, role := some "user" } }

/-- A stand-in for `bcrypt.compare`: the hash of `p` is `hash:p`. -/
def sampleCompare (password hash : String) : Bool :=
  hash = "hash:" ++ password

/-- The access token issued to `sampleUser` at second 1000 under the secret `changeme`. -/
def sampleAccessToken : String :=
  "2.711.94.1.4.711.511.101.411.0001.0091.8.99.401.79.011.301.101.901.101."

/-- The refresh token issued to `sampleUser` at second 1000 under the secret `changeme`. -/
def sampleRefreshToken : String :=
  "2.711.94.1.4.711.511.101.411.0001.008506.8.99.401.79.011.301.101.901.101."

/-! ## `src/middleware/authorizeRoles.js` -/

/-- The middleware returned by `authorizeRoles(...allowedRoles)`, run on a
request whose `user` is `user`. -/
def authorizeRoles (allowedRoles : List String) (user : Option Claims) : GateResult :=
  match user with
  | none =>
    { response := some ⟨403, ApiResponse.error "Access denied: No role specified"⟩,
      nextCalled := false, user := user, thrown := none, calls := [] }
  | some u =>
    if !truthy u.role then
      { response := some ⟨403, ApiResponse.error "Access denied: No role specified"⟩,
        nextCalled := false, user := user, thrown := none, calls := [] }
    else if allowedRoles.length = 0 then
      { response := some ⟨500, ApiResponse.error "Server configuration error: No roles specified"⟩,
        nextCalled := false, user := user, thrown := none, calls := [] }
    else if !allowedRoles.contains (u.role.getD "") then
      { response := some ⟨403, ApiResponse.error "Access denied: Insufficient permissions"⟩,
        nextCalled := false, user := user, thrown := none, calls := [] }
    else
      { response := none, nextCalled := true, user := user, thrown := none, calls := [] }

/-! ## `AuthService.register` and `AuthService.logout` -/

/-- The argument of `AuthService.register`: `{ name, email, password, role }`. -/
structure RegisterData where
  name : Option String
  email : String
  password : String
  role : Option String
  deriving DecidableEq, Repr

/-- The object literal handed to `User.create`. -/
structure NewUserRecord where
  name : Option String
  email : String
  password : String
  role : Option String
  accountStatus_isVerified : Bool
  accountStatus_isActive : Bool
  deriving DecidableEq, Repr

/-- What `AuthService.register` leaves behind: its result, the user collection,
and the records it handed to `User.create`. -/
structure RegisterOutcome where
  result : Except JsError AuthResult
  db : List User
  handed : List NewUserRecord
  deriving DecidableEq, Repr

/-- `AuthService.register(userData)` at the second `now`. `bcryptHash` is
`bcrypt.hash`; `create` is what the collection makes of a record handed to
`User.create` (the stored document, or a validation error). -/
def AuthService.register (env : Option String) (db : List User)
    (bcryptHash : String → Nat → String) (create : NewUserRecord → Except JsError User)
    (now : Nat) (userData : RegisterData) : RegisterOutcome :=
  match User.findOne db userData.email with
  | some _ =>
    { result := .error (JsError.plain "Email already registered"), db := db, handed := [] }
  | none =>
    let hashedPassword := bcryptHash userData.password 10
    let record : NewUserRecord :=
      { name := userData.name, email := userData.email, password := hashedPassword,
        role := userData.role, accountStatus_isVerified := false,
        accountStatus_isActive := true }
    match create record with
    | .error e => { result := .error e, db := db, handed := [record] }
    | .ok newUser =>
      match AuthService.generateTokenPair env now newUser with
      | .error e => { result := .error e, db := db ++ [newUser], handed := [record] }
      | .ok tokens =>
        { result := .ok
            { user := { _id := newUser._id, name := newUser.name, email := newUser.email,
                        role := newUser.role,
                        isVerified := newUser.accountStatus.isVerified },
              tokens := tokens },
          db := db ++ [newUser], handed := [record] }

/-- What `AuthService.logout` leaves behind: its result, the revocation store,
the ids it passed to `User.findByIdAndUpdate` and the errors it wrote with
`console.error`. -/
structure ServiceLogoutOutcome where
  result : Except JsError Unit
  redis : Redis
  updated : List String
  logged : List JsError
  deriving DecidableEq, Repr

/-- `AuthService.logout(token)` at the second `now`. `findByIdAndUpdate` is the
outcome of `User.findByIdAndUpdate(id, { $unset: { refreshToken: 1 } })`. The
function has no statement that reaches the revocation store (the call that
would is commented out), so the store is handed back as it came. -/
def AuthService.logout (env : Option String) (r : Redis)
    (findByIdAndUpdate : String → Except JsError Unit) (now : Nat)
    (token : Option String) : ServiceLogoutOutcome :=
  match token with
  | none => { result := .ok (), redis := r, updated := [], logged := [] }
  | some t =>
    if t = "" then { result := .ok (), redis := r, updated := [], logged := [] }
    else
      match jwt.verify now t (some (JWT_SECRET env)) with
      | .error error => { result := .ok (), redis := r, updated := [], logged := [error] }
      | .ok decoded =>
        if decoded.sub ≠ "" then
          match findByIdAndUpdate decoded.sub with
          | .ok _ => { result := .ok (), redis := r, updated := [decoded.sub], logged := [] }
          | .error error =>
            { result := .ok (), redis := r, updated := [decoded.sub], logged := [error] }
        else { result := .ok (), redis := r, updated := [], logged := [] }

/-! ## Observations on the store -/

/-- The expiry second of the store's entry for `token`, if there is one. -/
def entryExpiry (r : Redis) (token : String) : Option Nat :=
  (r.entries.find? (fun e => e.key = blacklistKey token)).map (fun e => e.expiresAt)

/-! ## `User.create` under the schema of `src/models/User.js` -/

/-- The members of a document handed to `User.create` that the schema defines and
that matter here. Members the schema does not define, such as `name` and a
top-level `role`, are dropped by Mongoose before validation. -/
structure UserInput where
  username : Option String
  email : Option String
  password : Option String
  profile_firstName : Option String
  profile_lastName : Option String
  accountStatus_isVerified : Option Bool
  accountStatus_isActive : Option Bool
  accountStatus_role : Option String
  deriving DecidableEq, Repr

/-- What the schema sees of the object literal that `AuthService.register` hands
to `User.create`: `email`, `password` and the two `accountStatus` flags; `name`
and `role` are not schema paths, and no `username` or `profile` is supplied. -/
def NewUserRecord.toInput (record : NewUserRecord) : UserInput :=
  { username := none, email := some record.email, password := some record.password,
    profile_firstName := none, profile_lastName := none,
    accountStatus_isVerified := some record.accountStatus_isVerified,
    accountStatus_isActive := some record.accountStatus_isActive,
    accountStatus_role := none }

/-- The messages of the `required` validators of the schema that fail on a
document, in schema order: `username`, `email`, `password`,
`profile.firstName`, `profile.lastName`. -/
def User.requiredErrors (input : UserInput) : List String :=
  (if truthy input.username then [] else ["username: Username is required"]) ++
  (if truthy input.email then [] else ["email: Email is required"]) ++
  (if truthy input.password then [] else ["password: Password is required"]) ++
  (if truthy input.profile_firstName then []
    else ["profile.firstName: First name is required"]) ++
  (if truthy input.profile_lastName then []
    else ["profile.lastName: Last name is required"])

/-- `User.create(doc)`: the document is validated and, when no validator fails,
stored with the id `newId` and the schema defaults. `formatErrors` gives the
messages of the validators other than `required` (`match`, `minlength`,
`maxlength`, `enum`). -/
def User.create (newId : String) (formatErrors : UserInput → List String)
    (input : UserInput) : Except JsError User :=
  let errors := User.requiredErrors input ++ formatErrors input
  if errors = [] then
    .ok { _id := newId, name := none, email := input.email.getD "",
          password := input.password.getD "", role := none,
          accountStatus :=
            { isVerified := input.accountStatus_isVerified.getD false,
              isActive := input.accountStatus_isActive.getD true,
              role := some (input.accountStatus_role.getD "user") } }
  else
    .error { name := "ValidationError",
             message := "User validation failed: " ++ ", ".intercalate errors }

/-- No validator other than `required` fails. -/
def noFormatErrors (_input : UserInput) : List String := []

/-- A stand-in for `bcrypt.hash`, matching `sampleCompare`. -/
def sampleHash (password : String) (_rounds : Nat) : String :=
  "hash:" ++ password

/-- An update of the user collection that always fails. -/
def failingUpdate (_id : String) : Except JsError Unit :=
  .error (JsError.plain "MongoNetworkError")

/-! ## `src/utils/TokenUtils.js` -/

/-- `TokenUtils.generateAccessToken(user)` at the second `now`; the secret is
`process.env.JWT_SECRET` itself. -/
def TokenUtils.generateAccessToken (env : Option String) (now : Nat) (user : User) :
    Except JsError String :=
  jwt.sign now { sub := user._id, role := user.role } env "15m"

/-- `TokenUtils.generateRefreshToken(user)` at the second `now`. -/
def TokenUtils.generateRefreshToken (env : Option String) (now : Nat) (user : User) :
    Except JsError String :=
  jwt.sign now { sub := user._id, role := none } env "7d"

/-- `TokenUtils.verifyToken(token)` at the second `now`. -/
def TokenUtils.verifyToken (env : Option String) (now : Nat) (token : String) :
    Except JsError Claims :=
  match jwt.verify now token env with
  | .ok decoded => .ok decoded
  | .error _ => .error (JsError.plain "Invalid token")

/-! ## Commands sent to the revocation store -/

/-- A command sent to the Redis server. -/
inductive RedisCmd where
  | get (key : String)
  | setEx (key value : String) (ttl : Nat)
  deriving DecidableEq, Repr

/-- Modelled from the spec: the Redis client exported by `config/redis`, which is
not among the sources. The store after one command at the second `now`: a `GET`
is the query `isRevoked` and leaves the store as it is, a `SET ... EX` is
`Redis.set`; a command that rejects changes nothing. -/
def Redis.exec (r : Redis) (now : Nat) : RedisCmd → Redis
  | .get _ => r
  | .setEx key value ttl =>
    match r.set now key value ttl with
    | .ok r' => r'
    | .error _ => r

/-- The store after a list of commands, first to last. -/
def Redis.execAll (r : Redis) (now : Nat) (cmds : List RedisCmd) : Redis :=
  cmds.foldl (fun s c => s.exec now c) r

/-- The commands that `TokenBlacklistService.add(token, ttlSeconds)` sends. -/
def TokenBlacklistService.addCmds (token : Option String) (ttlSeconds : Option Nat) :
    List RedisCmd :=
  match token with
  | none => []
  | some t => if t = "" then [] else [.setEx (blacklistKey t) "true" (ttlSeconds.getD 900)]

/-- The commands that `TokenBlacklistService.isBlacklisted(token)` sends. -/
def TokenBlacklistService.isBlacklistedCmds (token : Option String) : List RedisCmd :=
  match token with
  | none => []
  | some t => if t = "" then [] else [.get (blacklistKey t)]

/-- The commands behind one call of the gatekeeper. -/
def GateCall.cmds : GateCall → List RedisCmd
  | .isBlacklisted token => TokenBlacklistService.isBlacklistedCmds (some token)
  | .jwtVerify _ => []

/-- The commands sent during one run of the gatekeeper, in order. -/
def gateCmds : List GateCall → List RedisCmd
  | [] => []
  | c :: cs => c.cmds ++ gateCmds cs

/-- What `AuthService.refreshToken` leaves behind in a process whose revocation
store is `r`: its result, the store, and the commands it sent to the store. -/
structure RefreshOutcome where
  result : Except JsError TokenPair
  redis : Redis
  cmds : List RedisCmd
  deriving DecidableEq, Repr

/-- `AuthService.refreshToken(refreshToken)` run beside the revocation store `r`.
Neither the function nor `generateTokenPair` has a statement that reaches the
store, so no command is sent and the store is handed back as it came. -/
def AuthService.refreshTokenRun (env : Option String) (db : List User) (r : Redis)
    (now : Nat) (refreshToken : String) : RefreshOutcome :=
  { result := AuthService.refreshToken env db now refreshToken, redis := r, cmds := [] }

/-! ## Slugs (`src/models/News.js`, `src/models/League.js`) -/

/-- A character matched by `\s` in a JavaScript regular expression, and removed
by `String.prototype.trim`. -/
def isJsSpace (c : Char) : Bool :=
  let n := c.toNat
  (9 ≤ n && n ≤ 13) || n = 32 || n = 160 || n = 5760 || (8192 ≤ n && n ≤ 8202) ||
    n = 8232 || n = 8233 || n = 8239 || n = 8287 || n = 12288 || n = 65279

/-- A character of `a-z` or `0-9`. -/
def isLowerAlnum (c : Char) : Bool :=
  let n := c.toNat
  (97 ≤ n && n ≤ 122) || (48 ≤ n && n ≤ 57)

/-- A character that `/[^a-z0-9\s-]/` does not match. -/
def keptBySlug (c : Char) : Bool :=
  isLowerAlnum c || isJsSpace c || c = '-'

/-- `.replace(/\s+/g, '-')`: every maximal run of white space becomes one hyphen;
`inRun` tells that the previous character was white space. -/
def spacesToHyphen (inRun : Bool) : List Char → List Char
  | [] => []
  | c :: cs =>
    if isJsSpace c then
      if inRun then spacesToHyphen true cs else '-' :: spacesToHyphen true cs
    else c :: spacesToHyphen false cs

/-- The replacement of the global pattern `-+` by `'-'`: every maximal run of
hyphens becomes one hyphen;
`inRun` tells that the previous character was a hyphen. -/
def collapseHyphens (inRun : Bool) : List Char → List Char
  | [] => []
  | c :: cs =>
    if c = '-' then
      if inRun then collapseHyphens true cs else '-' :: collapseHyphens true cs
    else c :: collapseHyphens false cs

/-- Removes the first character when it is a hyphen. -/
def stripLeadingHyphen : List Char → List Char
  | [] => []
  | c :: cs => if c = '-' then cs else c :: cs

/-- `.replace(/^-|-$/g, '')`: one hyphen at the start and one at the end go. -/
def stripEdgeHyphens (cs : List Char) : List Char :=
  (stripLeadingHyphen (stripLeadingHyphen cs).reverse).reverse

/-- `String.prototype.trim`: white space at both ends goes. The method takes no
argument; one that is passed is ignored. -/
def jsTrim (cs : List Char) : List Char :=
  ((cs.dropWhile isJsSpace).reverse.dropWhile isJsSpace).reverse

/-- `newsSchema.methods.generateSlug` for a document whose title is `title`;
`toLowerCase` is `String.prototype.toLowerCase`. -/
def News.generateSlug (toLowerCase : String → String) (title : String) : String :=
  String.mk (stripEdgeHyphens (collapseHyphens false (spacesToHyphen false
    ((toLowerCase title).data.filter keptBySlug))))

/-- The slug expression of the League pre-save hook, whose last step is
`.trim('-')`. -/
def League.slugOf (toLowerCase : String → String) (name : String) : String :=
  String.mk (jsTrim (collapseHyphens false (spacesToHyphen false
    ((toLowerCase name).data.filter keptBySlug))))

/-- The slug part of `leagueSchema.pre('save')`: the slug is regenerated when the
name is modified or the document has no slug. -/
def League.preSave (toLowerCase : String → String) (nameModified : Bool)
    (slug : Option String) (name : String) : Option String :=
  if nameModified || !truthy slug then some (League.slugOf toLowerCase name) else slug

/-- `toLowerCase` on the ASCII letters. -/
def asciiLower (s : String) : String := String.mk (s.data.map Char.toLower)

/-! ## Team statistics (`src/models/Team.js`) -/

/-- The `statistics` sub-document, with the members `addMatchResult` writes. -/
structure TeamStatistics where
  totalMatches : Nat
  wins : Nat
  draws : Nat
  losses : Nat
  goalsFor : Nat
  goalsAgainst : Nat
  points : Nat
  deriving DecidableEq, Repr

/-- A team document: its statistics and `currentSeason.form`. -/
structure Team where
  statistics : TeamStatistics
  form : List String
  deriving DecidableEq, Repr

/-- `teamSchema.methods.addMatchResult(result, goalsFor, goalsAgainst)`: the
document as it is handed to `save`. -/
def Team.addMatchResult (team : Team) (result : String) (goalsFor goalsAgainst : Nat) :
    Team :=
  let s0 := team.statistics
  let s1 : TeamStatistics :=
    { s0 with totalMatches := s0.totalMatches + 1, goalsFor := s0.goalsFor + goalsFor,
              goalsAgainst := s0.goalsAgainst + goalsAgainst }
  let t1 : Team :=
    if result = "win" then
      { statistics := { s1 with wins := s1.wins + 1, points := s1.points + 3 },
        form := "W" :: team.form }
    else if result = "draw" then
      { statistics := { s1 with draws := s1.draws + 1, points := s1.points + 1 },
        form := "D" :: team.form }
    else if result = "loss" then
      { statistics := { s1 with losses := s1.losses + 1 }, form := "L" :: team.form }
    else { statistics := s1, form := team.form }
  if t1.form.length > 5 then { t1 with form := t1.form.take 5 } else t1

/-- A team that has not played. -/
def freshTeam : Team :=
  { statistics := { totalMatches := 0, wins := 0, draws := 0, losses := 0, goalsFor := 0,
                    goalsAgainst := 0, points := 0 },
    form := [] }

end KickOff

/-! ## The token codec reads back what it writes -/

namespace KickOff

theorem charDigit_digitChar (d : Nat) (h : d < 10) : charDigit (digitChar d) = some d := by
  interval_cases d <;> decide

theorem digitChar_ne_dot (d : Nat) (h : d < 10) : digitChar d ≠ '.' := by
  interval_cases d <;> decide

theorem decNat_encNatAux (fuel n : Nat) (rest : List Char) (h : n ≤ fuel) :
    decNat (encNatAux fuel n ++ rest) = some (n, rest) := by
  induction fuel generalizing n with
  | zero =>
    have hn : n = 0 := by omega
    subst hn
    simp [encNatAux, decNat]
  | succ f ih =>
    by_cases hn : n = 0
    · subst hn
      simp [encNatAux, decNat]
    · have hlt : n % 10 < 10 := Nat.mod_lt _ (by decide)
      have hdiv : n / 10 ≤ f := by omega
      simp only [encNatAux, if_neg hn, List.cons_append, decNat,
        if_neg (digitChar_ne_dot _ hlt), charDigit_digitChar _ hlt, ih _ hdiv]
      congr 2
      omega

theorem decNat_encNat (n : Nat) (rest : List Char) :
    decNat (encNat n ++ rest) = some (n, rest) :=
  decNat_encNatAux n n rest (Nat.le_refl n)

theorem decChars_encChars (cs rest : List Char) :
    decChars cs.length (encChars cs ++ rest) = some (cs, rest) := by
  induction cs with
  | nil => simp [encChars, decChars]
  | cons c cs ih =>
    simp only [List.length_cons, encChars, List.append_assoc, decChars, decNat_encNat, ih,
      Char.ofNat_toNat]

theorem decStr_encStr (s : String) (rest : List Char) :
    decStr (encStr s ++ rest) = some (s, rest) := by
  simp only [encStr, decStr, List.append_assoc, decNat_encNat, String.length,
    decChars_encChars]

theorem decOptStr_encOptStr (o : Option String) (rest : List Char) :
    decOptStr (encOptStr o ++ rest) = some (o, rest) := by
  cases o with
  | none => simp only [encOptStr, decOptStr, decNat_encNat]
  | some s => simp only [encOptStr, decOptStr, List.append_assoc, decNat_encNat, decStr_encStr]

theorem decode_encode (t : SignedJwt) : SignedJwt.decode t.encode = some t := by
  have h := decStr_encStr t.key []
  rw [List.append_nil] at h
  simp only [SignedJwt.encode, SignedJwt.decode, List.append_assoc, decStr_encStr,
    decOptStr_encOptStr, decNat_encNat, h]

end KickOff

/-! ## What `jwt.verify` can answer -/

namespace KickOff

theorem verify_ok_iff (now : Nat) (token : String) (env : Option String) (c : Claims) :
    jwt.verify now token env = .ok c ↔
      ∃ t, SignedJwt.decode token = some t ∧ t.claims = c ∧ some t.key = env ∧
        t.key ≠ "" ∧ token ≠ "" ∧ now < c.exp := by
  unfold jwt.verify
  by_cases htok : token = ""
  · simp [htok]
  · cases hdec : SignedJwt.decode token with
    | none => simp [htok]
    | some t =>
      cases env with
      | none => simp [htok, truthy]
      | some k =>
        by_cases hk : k = ""
        · subst hk
          simp only [htok, truthy, if_false, ne_eq, not_true_eq_false, decide_False,
            Bool.not_false, if_true, reduceCtorEq, false_iff, not_exists, not_and]
          intro t' ht' _ hkey hne
          simp only [Option.some.injEq] at ht' hkey
          exact absurd hkey hne
        · by_cases hkey : t.key = k
          · by_cases hexp : now ≥ t.claims.exp
            · simp only [htok, truthy, hk, hkey, hexp, if_false, ne_eq, not_false_eq_true,
                decide_True, Bool.not_true, not_true_eq_false, if_true, reduceCtorEq,
                false_iff, not_exists, not_and, Option.some.injEq, Bool.false_eq_true]
              intro t' ht' hc _ _ _
              subst ht' hc
              omega
            · simp only [htok, truthy, hk, hkey, hexp, if_false, ne_eq, not_false_eq_true,
                decide_True, Bool.not_true, not_true_eq_false, Except.ok.injEq,
                Option.some.injEq, Bool.false_eq_true]
              constructor
              · intro hc
                exact ⟨t, rfl, hc, hkey, hkey ▸ hk, trivial, by subst hc; omega⟩
              · rintro ⟨t', ht', hc, _, _, _, _⟩
                subst ht'
                exact hc
          · simp only [htok, truthy, hk, if_false, ne_eq, not_false_eq_true, decide_True,
              Bool.not_true, Option.some.injEq, hkey, if_true, reduceCtorEq, false_iff,
              not_exists, not_and, Bool.false_eq_true]
            intro t' ht' _ hkey'
            subst ht'
            exact absurd hkey' hkey

theorem sign_ok (iat : Nat) (payload : JwtPayload) (secret : Option String) (span token : String)
    (h : jwt.sign iat payload secret span = .ok token) :
    ∃ exp key, timespan span iat = some exp ∧ secret = some key ∧ key ≠ "" ∧
      token = SignedJwt.encode
        { claims := { sub := payload.sub, role := payload.role, iat := iat, exp := exp },
          key := key } := by
  unfold jwt.sign at h
  cases hspan : timespan span iat with
  | none => simp [hspan] at h
  | some exp =>
    cases secret with
    | none => simp [hspan, truthy] at h
    | some key =>
      by_cases hk : key = ""
      · simp [hspan, truthy, hk] at h
      · simp only [hspan, truthy, ne_eq, hk, not_false_eq_true, decide_True, if_true,
          Option.getD_some, Except.ok.injEq] at h
        exact ⟨exp, key, rfl, rfl, hk, h.symm⟩

theorem verify_error_cases (now : Nat) (token : String) (env : Option String) (e : JsError)
    (h : jwt.verify now token env = .error e) :
    e = TokenExpiredError ∨ e.name = "JsonWebTokenError" := by
  unfold jwt.verify at h
  split at h
  · cases h; right; rfl
  · split at h
    · cases h; right; rfl
    · split at h
      · cases h; right; rfl
      · split at h
        · cases h; right; rfl
        · split at h
          · cases h; left; rfl
          · cases h

end KickOff

/-! ## The request gatekeeper -/

namespace KickOff

theorem gate_of_clean_token (env : Option String) (r : Redis) (now : Nat)
    (authHeader : Option String) (token : String)
    (htok : headerToken authHeader = some token) (hne : token ≠ "")
    (hbl : TokenBlacklistService.isBlacklisted r now (some token) = .ok false) :
    authenticateToken env r now authHeader =
      match jwt.verify now token env with
      | .ok decoded =>
        { response := none, nextCalled := true, user := some decoded, thrown := none,
          calls := [.isBlacklisted token, .jwtVerify token] }
      | .error err =>
        { response := some ⟨403, ApiResponse.error
            (if err.name = "TokenExpiredError" then "Token has expired" else "Invalid token")⟩,
          nextCalled := false, user := none, thrown := none,
          calls := [.isBlacklisted token, .jwtVerify token] } := by
  simp only [authenticateToken, htok, if_neg hne, hbl]

/-- C6: a request without an authorization header, or whose header has no second
space-separated piece, is answered 401 "Access token required"; the gatekeeper
makes no call to the revocation store or to the verifier and does not call
`next`. -/
theorem C6_missing_token_rejected (env : Option String) (r : Redis) (now : Nat)
    (authHeader : Option String)
    (h : authHeader = none ∨ ∃ s, authHeader = some s ∧ (splitSpace s)[1]? = none) :
    authenticateToken env r now authHeader =
      { response := some ⟨401, ApiResponse.error "Access token required"⟩,
        nextCalled := false, user := none, thrown := none, calls := [] } := by
  rcases h with h | ⟨s, hs, hnone⟩
  · subst h
    rfl
  · subst hs
    by_cases hempty : s = ""
    · simp [authenticateToken, headerToken, hempty]
    · simp [authenticateToken, headerToken, hempty, hnone]

theorem C6_missing_token_rejected_witness :
    ((some "Bearer" = none ∨ ∃ s, some "Bearer" = some s ∧ (splitSpace s)[1]? = none) ∧
      authenticateToken (some "changeme") emptyStore 1000 (some "Bearer") =
        { response := some ⟨401, ApiResponse.error "Access token required"⟩,
          nextCalled := false, user := none, thrown := none, calls := [] }) ∧
    authenticateToken (some "changeme") downStore 1000 none =
        { response := some ⟨401, ApiResponse.error "Access token required"⟩,
          nextCalled := false, user := none, thrown := none, calls := [] } :=
  ⟨⟨Or.inr ⟨"Bearer", rfl, by decide⟩,
    C6_missing_token_rejected (some "changeme") emptyStore 1000 (some "Bearer")
      (Or.inr ⟨"Bearer", rfl, by decide⟩)⟩,
   C6_missing_token_rejected (some "changeme") downStore 1000 none (Or.inl rfl)⟩

/-- C4, as stated, fails: the access token of `sampleUser`, presented at its
expiry second 1900, is present, not revoked and correctly signed, verification
raises `TokenExpiredError`, and the gatekeeper answers 403, not 401. -/
theorem C4_counterexample :
    headerToken (some ("Bearer " ++ sampleAccessToken)) = some sampleAccessToken ∧
    TokenBlacklistService.isBlacklisted emptyStore 1900 (some sampleAccessToken) = .ok false ∧
    jwt.verify 1900 sampleAccessToken (some "changeme") = .error TokenExpiredError ∧
    (authenticateToken (some "changeme") emptyStore 1900
      (some ("Bearer " ++ sampleAccessToken))).response =
        some ⟨403, ApiResponse.error "Token has expired"⟩ ∧
    ((authenticateToken (some "changeme") emptyStore 1900
      (some ("Bearer " ++ sampleAccessToken))).response.map (fun x => x.status)) ≠ some 401 := by
  decide

/-- C4, amended: a request whose bearer token is present, not revoked and whose
verification raises `TokenExpiredError` is answered with status 403 and the
message "Token has expired"; `next` is not called and no user is attached. -/
theorem C4_expired_token_rejected (env : Option String) (r : Redis) (now : Nat)
    (authHeader : Option String) (token : String)
    (htok : headerToken authHeader = some token) (hne : token ≠ "")
    (hbl : TokenBlacklistService.isBlacklisted r now (some token) = .ok false)
    (hexp : jwt.verify now token env = .error TokenExpiredError) :
    authenticateToken env r now authHeader =
      { response := some ⟨403, ApiResponse.error "Token has expired"⟩,
        nextCalled := false, user := none, thrown := none,
        calls := [.isBlacklisted token, .jwtVerify token] } := by
  rw [gate_of_clean_token env r now authHeader token htok hne hbl, hexp]
  rfl

theorem C4_expired_token_rejected_witness :
    authenticateToken (some "changeme") emptyStore 2500 (some ("Bearer " ++ sampleAccessToken)) =
      { response := some ⟨403, ApiResponse.error "Token has expired"⟩,
        nextCalled := false, user := none, thrown := none,
        calls := [.isBlacklisted sampleAccessToken, .jwtVerify sampleAccessToken] } :=
  C4_expired_token_rejected (some "changeme") emptyStore 2500
    (some ("Bearer " ++ sampleAccessToken)) sampleAccessToken
    (by decide) (by decide) (by decide) (by decide)

/-- C5: a request whose bearer token is present, not revoked and fails
verification with any error other than the expiry error is answered with status
403 and the message "Invalid token"; `next` is not called, no user is attached,
and the body differs from the body sent to any request whose token is expired. -/
theorem C5_invalid_token_rejected (env : Option String) (r : Redis) (now : Nat)
    (authHeader : Option String) (token : String) (e : JsError)
    (htok : headerToken authHeader = some token) (hne : token ≠ "")
    (hbl : TokenBlacklistService.isBlacklisted r now (some token) = .ok false)
    (hfail : jwt.verify now token env = .error e) (hother : e ≠ TokenExpiredError) :
    authenticateToken env r now authHeader =
      { response := some ⟨403, ApiResponse.error "Invalid token"⟩,
        nextCalled := false, user := none, thrown := none,
        calls := [.isBlacklisted token, .jwtVerify token] } ∧
    ∀ (env2 : Option String) (r2 : Redis) (now2 : Nat) (authHeader2 : Option String)
      (token2 : String),
      headerToken authHeader2 = some token2 → token2 ≠ "" →
      TokenBlacklistService.isBlacklisted r2 now2 (some token2) = .ok false →
      jwt.verify now2 token2 env2 = .error TokenExpiredError →
      (authenticateToken env r now authHeader).response ≠
        (authenticateToken env2 r2 now2 authHeader2).response := by
  have hname : e.name ≠ "TokenExpiredError" := by
    rcases verify_error_cases now token env e hfail with h | h
    · exact absurd h hother
    · rw [h]; decide
  have hmain : authenticateToken env r now authHeader =
      { response := some ⟨403, ApiResponse.error "Invalid token"⟩,
        nextCalled := false, user := none, thrown := none,
        calls := [.isBlacklisted token, .jwtVerify token] } := by
    rw [gate_of_clean_token env r now authHeader token htok hne hbl, hfail]
    simp only [if_neg hname]
  refine ⟨hmain, ?_⟩
  intro env2 r2 now2 authHeader2 token2 htok2 hne2 hbl2 hexp2
  rw [hmain, gate_of_clean_token env2 r2 now2 authHeader2 token2 htok2 hne2 hbl2, hexp2]
  simp [TokenExpiredError, ApiResponse.error]

theorem C5_invalid_token_rejected_witness :
    authenticateToken (some "other-secret") emptyStore 1100
        (some ("Bearer " ++ sampleAccessToken)) =
      { response := some ⟨403, ApiResponse.error "Invalid token"⟩,
        nextCalled := false, user := none, thrown := none,
        calls := [.isBlacklisted sampleAccessToken, .jwtVerify sampleAccessToken] } ∧
    authenticateToken (some "changeme") emptyStore 1100 (some "Bearer garbage") =
      { response := some ⟨403, ApiResponse.error "Invalid token"⟩,
        nextCalled := false, user := none, thrown := none,
        calls := [.isBlacklisted "garbage", .jwtVerify "garbage"] } :=
  ⟨(C5_invalid_token_rejected (some "other-secret") emptyStore 1100
      (some ("Bearer " ++ sampleAccessToken)) sampleAccessToken
      (JsonWebTokenError "invalid signature")
      (by decide) (by decide) (by decide) (by decide) (by decide)).1,
   (C5_invalid_token_rejected (some "changeme") emptyStore 1100
      (some "Bearer garbage") "garbage" (JsonWebTokenError "jwt malformed")
      (by decide) (by decide) (by decide) (by decide) (by decide)).1⟩

/-- C7: the gatekeeper calls `next` exactly when a bearer token is present, the
revocation store answers that it is not revoked, and verification succeeds;
exactly then `req.user` is set, to the decoded claims; and for a token made by
`jwt.sign` the attached subject id and role are those of the signed payload. -/
theorem C7_next_iff_authenticated (env : Option String) (r : Redis) (now : Nat)
    (authHeader : Option String) :
    ((authenticateToken env r now authHeader).nextCalled = true ↔
      ∃ token claims, headerToken authHeader = some token ∧ token ≠ "" ∧
        TokenBlacklistService.isBlacklisted r now (some token) = .ok false ∧
        jwt.verify now token env = .ok claims) ∧
    (∀ c, (authenticateToken env r now authHeader).user = some c ↔
      ∃ token, headerToken authHeader = some token ∧ token ≠ "" ∧
        TokenBlacklistService.isBlacklisted r now (some token) = .ok false ∧
        jwt.verify now token env = .ok c) ∧
    (∀ c, (authenticateToken env r now authHeader).user = some c →
      ∀ (token : String) (iat : Nat) (payload : JwtPayload) (secret : Option String)
        (span : String),
        headerToken authHeader = some token →
        jwt.sign iat payload secret span = .ok token →
        c.sub = payload.sub ∧ c.role = payload.role ∧ c.iat = iat) := by
  have huser : ∀ c, (authenticateToken env r now authHeader).user = some c ↔
      ∃ token, headerToken authHeader = some token ∧ token ≠ "" ∧
        TokenBlacklistService.isBlacklisted r now (some token) = .ok false ∧
        jwt.verify now token env = .ok c := by
    intro c
    cases hh : headerToken authHeader with
    | none => simp [authenticateToken, hh]
    | some token =>
      by_cases hne : token = ""
      · simp [authenticateToken, hh, hne]
      · cases hbl : TokenBlacklistService.isBlacklisted r now (some token) with
        | error e => simp [authenticateToken, hh, hne, hbl]
        | ok b =>
          cases b with
          | true => simp [authenticateToken, hh, hne, hbl]
          | false =>
            cases hv : jwt.verify now token env with
            | error e => simp [authenticateToken, hh, hne, hbl, hv]
            | ok d => simp [authenticateToken, hh, hne, hbl, hv]
  refine ⟨?_, huser, ?_⟩
  · cases hh : headerToken authHeader with
    | none => simp [authenticateToken, hh]
    | some token =>
      by_cases hne : token = ""
      · simp [authenticateToken, hh, hne]
      · cases hbl : TokenBlacklistService.isBlacklisted r now (some token) with
        | error e => simp [authenticateToken, hh, hne, hbl]
        | ok b =>
          cases b with
          | true => simp [authenticateToken, hh, hne, hbl]
          | false =>
            cases hv : jwt.verify now token env with
            | error e => simp [authenticateToken, hh, hne, hbl, hv]
            | ok d => simp [authenticateToken, hh, hne, hbl, hv]
  · intro c hc token iat payload secret span htok hsign
    obtain ⟨token', htok', _, _, hv⟩ := (huser c).1 hc
    rw [htok] at htok'
    cases htok'
    obtain ⟨t, hdec, hclaims, _⟩ := (verify_ok_iff now token env c).1 hv
    obtain ⟨exp, key, _, _, _, henc⟩ := sign_ok iat payload secret span token hsign
    rw [henc, decode_encode] at hdec
    cases hdec
    subst hclaims
    exact ⟨rfl, rfl, rfl⟩

/-- C8: when the revocation-store lookup made for the request's token raises,
the gatekeeper does not call `next`, attaches no user, does not go on to verify
the token and sends no response of its own: the error is thrown to its caller. -/
theorem C8_store_failure_not_allowed (env : Option String) (r : Redis) (now : Nat)
    (authHeader : Option String) (e : JsError)
    (h : TokenBlacklistService.isBlacklisted r now (headerToken authHeader) = .error e) :
    (authenticateToken env r now authHeader).nextCalled = false ∧
    (authenticateToken env r now authHeader).user = none ∧
    (authenticateToken env r now authHeader).thrown = some e ∧
    (authenticateToken env r now authHeader).response = none ∧
    ∀ t, GateCall.jwtVerify t ∉ (authenticateToken env r now authHeader).calls := by
  cases hh : headerToken authHeader with
  | none => simp [hh, TokenBlacklistService.isBlacklisted] at h
  | some token =>
    by_cases hne : token = ""
    · simp [hh, hne, TokenBlacklistService.isBlacklisted] at h
    · rw [hh] at h
      simp [authenticateToken, hh, hne, h]

theorem C8_store_failure_not_allowed_witness :
    TokenBlacklistService.isBlacklisted downStore 1100
        (headerToken (some ("Bearer " ++ sampleAccessToken))) = .error redisDown ∧
    jwt.verify 1100 sampleAccessToken (some "changeme") =
        .ok { sub := "u1", role := some "user", iat := 1000, exp := 1900 } ∧
    (authenticateToken (some "changeme") downStore 1100
        (some ("Bearer " ++ sampleAccessToken))).nextCalled = false ∧
    (authenticateToken (some "changeme") downStore 1100
        (some ("Bearer " ++ sampleAccessToken))).user = none :=
  ⟨by decide, by decide,
   (C8_store_failure_not_allowed (some "changeme") downStore 1100
      (some ("Bearer " ++ sampleAccessToken)) redisDown (by decide)).1,
   (C8_store_failure_not_allowed (some "changeme") downStore 1100
      (some ("Bearer " ++ sampleAccessToken)) redisDown (by decide)).2.1⟩

end KickOff

/-! ## The revocation store -/

namespace KickOff

theorem blacklistKey_inj (a b : String) : blacklistKey a = blacklistKey b ↔ a = b := by
  simp [blacklistKey, String.ext_iff]

theorem find_filter_other (l : List RedisEntry) (k k' : String) (h : k' ≠ k) :
    (l.filter (fun e => e.key ≠ k)).find? (fun e => e.key = k') =
      l.find? (fun e => e.key = k') := by
  rw [List.find?_filter]
  congr 1
  funext a
  by_cases ha : a.key = k'
  · simp [ha, h]
  · simp [ha]

theorem add_ok (r : Redis) (now : Nat) (t : String) (ttl : Option Nat)
    (hup : r.up = true) (ht : t ≠ "") :
    TokenBlacklistService.add r now (some t) ttl =
      .ok { up := true,
            entries := { key := blacklistKey t, value := "true",
                         expiresAt := now + ttl.getD 900 } ::
              r.entries.filter (fun e => e.key ≠ blacklistKey t) } := by
  simp [TokenBlacklistService.add, Redis.set, ht, hup]

theorem isBlacklisted_of_find (r : Redis) (now : Nat) (t : String) (hup : r.up = true)
    (ht : t ≠ "") :
    TokenBlacklistService.isBlacklisted r now (some t) =
      match r.entries.find? (fun e => e.key = blacklistKey t) with
      | some e => .ok (decide (now < e.expiresAt) && truthy (some e.value))
      | none => .ok false := by
  unfold TokenBlacklistService.isBlacklisted Redis.get
  cases hf : r.entries.find? (fun e => e.key = blacklistKey t) with
  | none => simp [ht, hup, hf, truthy]
  | some e =>
    by_cases hlt : now < e.expiresAt
    · simp [ht, hup, hf, hlt]
    · simp [ht, hup, hf, hlt, truthy]

theorem applyAdd_up (r : Redis) (c : AddCall) : (applyAdd r c).up = r.up := by
  unfold applyAdd TokenBlacklistService.add Redis.set
  cases c.token with
  | none => rfl
  | some t =>
    by_cases ht : t = ""
    · simp [ht]
    · by_cases hup : r.up = true
      · simp [ht, hup]
      · simp [ht, hup]

theorem runAdds_up (r : Redis) (history : List AddCall) : (runAdds r history).up = r.up := by
  induction history generalizing r with
  | nil => rfl
  | cons c cs ih =>
    show (runAdds (applyAdd r c) cs).up = r.up
    rw [ih, applyAdd_up]

theorem find_applyAdd (r : Redis) (c : AddCall) (t : String) (hup : r.up = true)
    (ht : t ≠ "") :
    (applyAdd r c).entries.find? (fun e => e.key = blacklistKey t) =
      if c.token = some t then
        some { key := blacklistKey t, value := "true",
               expiresAt := c.time + c.ttlSeconds.getD 900 }
      else r.entries.find? (fun e => e.key = blacklistKey t) := by
  unfold applyAdd
  cases hc : c.token with
  | none => simp [TokenBlacklistService.add]
  | some t' =>
    by_cases ht' : t' = ""
    · subst ht'
      have hne : ¬ ("" = t) := fun h => ht h.symm
      simp [TokenBlacklistService.add, hne]
    · rw [add_ok r c.time t' c.ttlSeconds hup ht']
      by_cases heq : t' = t
      · subst heq
        simp [List.find?_cons]
      · have hkey : blacklistKey t ≠ blacklistKey t' :=
          fun h => heq ((blacklistKey_inj _ _).1 h).symm
        have hkey' : blacklistKey t' ≠ blacklistKey t := fun h => hkey h.symm
        simp only [List.find?_cons, hkey', decide_False, Option.some.injEq, heq, if_false]
        exact find_filter_other r.entries (blacklistKey t') (blacklistKey t) hkey

theorem lastAdd_cons (t : String) (c : AddCall) (cs : List AddCall) :
    lastAdd t (c :: cs) =
      match lastAdd t cs with
      | some d => some d
      | none => if c.token = some t then some c else none := rfl

theorem find_runAdds (r : Redis) (history : List AddCall) (t : String) (hup : r.up = true)
    (ht : t ≠ "") :
    (runAdds r history).entries.find? (fun e => e.key = blacklistKey t) =
      match lastAdd t history with
      | some c => some { key := blacklistKey t, value := "true",
                         expiresAt := c.time + c.ttlSeconds.getD 900 }
      | none => r.entries.find? (fun e => e.key = blacklistKey t) := by
  induction history generalizing r with
  | nil => rfl
  | cons c cs ih =>
    show (runAdds (applyAdd r c) cs).entries.find? _ = _
    rw [ih (applyAdd r c) ((applyAdd_up r c).trans hup), find_applyAdd r c t hup ht,
      lastAdd_cons]
    cases lastAdd t cs with
    | some d => rfl
    | none =>
      by_cases hc : c.token = some t
      · simp [hc]
      · simp [hc]

theorem lastAdd_eq_none (t : String) (history : List AddCall) :
    lastAdd t history = none ↔ ∀ d ∈ history, d.token ≠ some t := by
  induction history with
  | nil => simp [lastAdd]
  | cons c cs ih =>
    rw [lastAdd_cons]
    cases hl : lastAdd t cs with
    | some d =>
      have hex : ¬ ∀ d ∈ cs, d.token ≠ some t := fun h => by
        rw [ih.2 h] at hl
        cases hl
      simp only [reduceCtorEq, List.mem_cons, forall_eq_or_imp, false_iff, not_and]
      intro _
      exact hex
    | none =>
      have hall := ih.1 hl
      by_cases hc : c.token = some t
      · simp [hc]
      · simp only [hc, if_false, List.mem_cons, forall_eq_or_imp, true_iff]
        exact ⟨hc, hall⟩

theorem lastAdd_eq_some (t : String) (history : List AddCall) (c : AddCall) :
    lastAdd t history = some c ↔
      ∃ earlier later, history = earlier ++ c :: later ∧ c.token = some t ∧
        ∀ d ∈ later, d.token ≠ some t := by
  induction history with
  | nil => simp [lastAdd]
  | cons a cs ih =>
    rw [lastAdd_cons]
    cases hl : lastAdd t cs with
    | some d =>
      rw [hl] at ih
      simp only [Option.some.injEq]
      constructor
      · intro hdc
        obtain ⟨earlier, later, hcs, hd, hlater⟩ := ih.1 (congrArg some hdc)
        exact ⟨a :: earlier, later, by rw [hcs]; rfl, hd, hlater⟩
      · rintro ⟨earlier, later, hcs, hc, hlater⟩
        cases earlier with
        | nil =>
          simp only [List.nil_append, List.cons.injEq] at hcs
          obtain ⟨_, hcs⟩ := hcs
          have hnone := (lastAdd_eq_none t cs).2 (hcs ▸ hlater)
          rw [hnone] at hl
          cases hl
        | cons e earlier =>
          simp only [List.cons_append, List.cons.injEq] at hcs
          have := ih.2 ⟨earlier, later, hcs.2, hc, hlater⟩
          exact Option.some.inj this
    | none =>
      have hall := (lastAdd_eq_none t cs).1 hl
      constructor
      · intro h
        by_cases ha : a.token = some t
        · simp only [ha, if_true, Option.some.injEq] at h
          subst h
          exact ⟨[], cs, rfl, ha, hall⟩
        · simp [ha] at h
      · rintro ⟨earlier, later, hcs, hc, hlater⟩
        cases earlier with
        | nil =>
          simp only [List.nil_append, List.cons.injEq] at hcs
          obtain ⟨hac, _⟩ := hcs
          subst hac
          simp [hc]
        | cons e earlier =>
          simp only [List.cons_append, List.cons.injEq] at hcs
          have hmem : c ∈ cs := by
            rw [hcs.2]
            simp
          exact absurd hc (hall c hmem)

theorem lastAdd_mem (t : String) (history : List AddCall) (c : AddCall)
    (h : lastAdd t history = some c) : c ∈ history ∧ c.token = some t := by
  obtain ⟨earlier, later, hh, hc, _⟩ := (lastAdd_eq_some t history c).1 h
  refine ⟨?_, hc⟩
  rw [hh]
  simp

theorem logout_redis (r : Redis) (now : Nat) (authorization : Option String) :
    (AuthController.logout r now authorization).redis =
      applyAdd r { time := now, token := logoutToken authorization, ttlSeconds := none } := by
  unfold AuthController.logout applyAdd
  cases ht : logoutToken authorization with
  | none => simp [truthy, TokenBlacklistService.add]
  | some t =>
    by_cases hne : t = ""
    · simp [truthy, TokenBlacklistService.add, hne]
    · simp only [truthy, ne_eq, hne, not_false_eq_true, decide_True, if_true]
      cases TokenBlacklistService.add r now (some t) none <;> rfl

theorem runLogouts_eq_runAdds (r : Redis) (history : List LogoutRequest) :
    runLogouts r history =
      runAdds r (history.map fun q =>
        { time := q.time, token := logoutToken q.authorization, ttlSeconds := none }) := by
  induction history generalizing r with
  | nil => rfl
  | cons q qs ih =>
    show runLogouts (AuthController.logout r q.time q.authorization).redis qs = _
    rw [ih, logout_redis]
    rfl

/-- C9: on the store reached by any history of `add` calls, `isBlacklisted(token)`
returns, and it returns `true` exactly when the token is a non-empty string, the
history holds a call for it, and the second `now` is before the expiry (call
time plus ttl) of the entry written by the latest such call; so it returns
`false` for a token never added and for one whose entry has expired. -/
theorem C9_isBlacklisted_iff_live_entry (history : List AddCall) (token : Option String)
    (now : Nat) :
    ∃ b, TokenBlacklistService.isBlacklisted (runAdds emptyStore history) now token = .ok b ∧
      (b = true ↔
        ∃ t earlier c later, token = some t ∧ t ≠ "" ∧
          history = earlier ++ c :: later ∧ c.token = some t ∧
          (∀ d ∈ later, d.token ≠ some t) ∧ now < c.time + c.ttlSeconds.getD 900) := by
  cases token with
  | none => exact ⟨false, rfl, by simp⟩
  | some t =>
    by_cases ht : t = ""
    · refine ⟨false, by simp [TokenBlacklistService.isBlacklisted, ht], ?_⟩
      simp only [Bool.false_eq_true, false_iff, not_exists, not_and]
      intro t' _ _ _ heq hne
      cases heq
      exact absurd ht hne
    · have hup : (runAdds emptyStore history).up = true := by
        rw [runAdds_up]
        rfl
      rw [isBlacklisted_of_find _ now t hup ht, find_runAdds emptyStore history t rfl ht]
      cases hl : lastAdd t history with
      | none =>
        refine ⟨false, rfl, ?_⟩
        simp only [Bool.false_eq_true, false_iff, not_exists, not_and]
        intro t' earlier c later heq _ hh hc _
        cases heq
        have hmem : c ∈ history := by
          rw [hh]
          simp
        exact absurd hc ((lastAdd_eq_none t history).1 hl c hmem)
      | some c =>
        refine ⟨decide (now < c.time + c.ttlSeconds.getD 900), by simp [truthy], ?_⟩
        simp only [decide_eq_true_eq]
        constructor
        · intro hlt
          obtain ⟨earlier, later, hh, hc, hlater⟩ := (lastAdd_eq_some t history c).1 hl
          exact ⟨t, earlier, c, later, rfl, ht, hh, hc, hlater, hlt⟩
        · rintro ⟨t', earlier, c', later, heq, _, hh, hc, hlater, hlt⟩
          cases heq
          have hl' := (lastAdd_eq_some t history c').2 ⟨earlier, later, hh, hc, hlater⟩
          rw [hl] at hl'
          cases hl'
          exact hlt

/-- C10: on a reachable store, two `add` calls for the same non-empty token both
return without error, and `isBlacklisted(token)` returns `true` after the first
call and after the second, at any second before the expiry that call set. -/
theorem C10_add_twice_idempotent (r : Redis) (t : String) (t1 n1 t2 n2 : Nat)
    (ttl1 ttl2 : Option Nat) (hup : r.up = true) (ht : t ≠ "")
    (h1 : n1 < t1 + ttl1.getD 900) (h2 : n2 < t2 + ttl2.getD 900) :
    ∃ r1 r2,
      TokenBlacklistService.add r t1 (some t) ttl1 = .ok r1 ∧
      TokenBlacklistService.isBlacklisted r1 n1 (some t) = .ok true ∧
      TokenBlacklistService.add r1 t2 (some t) ttl2 = .ok r2 ∧
      TokenBlacklistService.isBlacklisted r2 n2 (some t) = .ok true := by
  refine ⟨_, _, add_ok r t1 t ttl1 hup ht, ?_, add_ok _ t2 t ttl2 rfl ht, ?_⟩
  · rw [isBlacklisted_of_find _ n1 t rfl ht]
    simp [List.find?_cons, truthy, h1]
  · rw [isBlacklisted_of_find _ n2 t rfl ht]
    simp [List.find?_cons, truthy, h2]

theorem C10_add_twice_idempotent_witness :
    ∃ r1 r2,
      TokenBlacklistService.add emptyStore 1000 (some "abc") none = .ok r1 ∧
      TokenBlacklistService.isBlacklisted r1 1000 (some "abc") = .ok true ∧
      TokenBlacklistService.add r1 1001 (some "abc") none = .ok r2 ∧
      TokenBlacklistService.isBlacklisted r2 1900 (some "abc") = .ok true :=
  C10_add_twice_idempotent emptyStore "abc" 1000 1000 1001 1900 none none rfl
    (by decide) (by decide) (by decide)

/-- C1: once `AuthController.logout` has handled, at second `t1` and on a
reachable store, a request whose authorization header carries the token `t`,
then after any further logout requests handled from `t1` on, every request that
bears `t` and reaches the gatekeeper before second `t1 + 900` is answered 401
"Token is invalid": `next` is not called, no user is attached and the token is
not even verified, whatever the signing secret. -/
theorem C1_logged_out_token_rejected (env : Option String) (r : Redis) (t1 : Nat)
    (authorization : String) (t : String) (later : List LogoutRequest) (now : Nat)
    (authHeader : Option String)
    (hup : r.up = true) (hlogout : logoutToken (some authorization) = some t) (ht : t ≠ "")
    (hlater : ∀ q ∈ later, t1 ≤ q.time)
    (hbears : headerToken authHeader = some t) (hnow : now < t1 + 900) :
    (AuthController.logout r t1 (some authorization)).response =
      ⟨200, ApiResponse.success .null "Logged out successfully"⟩ ∧
    authenticateToken env
        (runLogouts (AuthController.logout r t1 (some authorization)).redis later) now
        authHeader =
      { response := some ⟨401, ApiResponse.error "Token is invalid"⟩,
        nextCalled := false, user := none, thrown := none, calls := [.isBlacklisted t] } := by
  constructor
  · simp [AuthController.logout, hlogout, truthy, ht, add_ok r t1 t none hup ht]
  · have hstore : runLogouts (AuthController.logout r t1 (some authorization)).redis later =
        runAdds r ({ time := t1, token := some t, ttlSeconds := none } ::
          later.map fun q =>
            { time := q.time, token := logoutToken q.authorization, ttlSeconds := none }) := by
      rw [runLogouts_eq_runAdds, logout_redis, hlogout]
      rfl
    have hup' : (runLogouts (AuthController.logout r t1 (some authorization)).redis later).up
        = true := by
      rw [hstore, runAdds_up]
      exact hup
    have hbl : TokenBlacklistService.isBlacklisted
        (runLogouts (AuthController.logout r t1 (some authorization)).redis later) now
        (some t) = .ok true := by
      rw [isBlacklisted_of_find _ now t hup' ht, hstore, find_runAdds r _ t hup ht]
      cases hl : lastAdd t ({ time := t1, token := some t, ttlSeconds := none } ::
          later.map fun q =>
            { time := q.time, token := logoutToken q.authorization, ttlSeconds := none }) with
      | none =>
        have := (lastAdd_eq_none t _).1 hl
          { time := t1, token := some t, ttlSeconds := none } (List.mem_cons_self _ _)
        exact absurd rfl this
      | some c =>
        obtain ⟨hmem, _⟩ := lastAdd_mem t _ c hl
        have hc : t1 ≤ c.time ∧ c.ttlSeconds = none := by
          rcases List.mem_cons.1 hmem with h | h
          · subst h
            exact ⟨Nat.le_refl _, rfl⟩
          · obtain ⟨q, hq, hqc⟩ := List.mem_map.1 h
            subst hqc
            exact ⟨hlater q hq, rfl⟩
        have hlt : now < c.time + 900 := by omega
        simp [hc.2, truthy, hlt]
    simp [authenticateToken, hbears, ht, hbl]

theorem C1_logged_out_token_rejected_witness :
    jwt.verify 1100 sampleAccessToken (some "changeme") =
      .ok { sub := "u1", role := some "user", iat := 1000, exp := 1900 } ∧
    authenticateToken (some "changeme")
        (runLogouts (AuthController.logout emptyStore 1050
          (some ("Bearer " ++ sampleAccessToken))).redis
          [{ time := 1060, authorization := some "Bearer other" }]) 1100
        (some ("Bearer " ++ sampleAccessToken)) =
      { response := some ⟨401, ApiResponse.error "Token is invalid"⟩,
        nextCalled := false, user := none, thrown := none,
        calls := [.isBlacklisted sampleAccessToken] } :=
  ⟨by decide,
   (C1_logged_out_token_rejected (some "changeme") emptyStore 1050
      ("Bearer " ++ sampleAccessToken) sampleAccessToken
      [{ time := 1060, authorization := some "Bearer other" }] 1100
      (some ("Bearer " ++ sampleAccessToken))
      rfl (by decide) (by decide) (by decide) (by decide) (by decide)).2⟩

end KickOff

/-! ## The authentication service -/

namespace KickOff

theorem encNatAux_ne_nil (fuel n : Nat) : encNatAux fuel n ≠ [] := by
  cases fuel with
  | zero => simp [encNatAux]
  | succ f =>
    unfold encNatAux
    split <;> simp

theorem encode_ne_empty (t : SignedJwt) : t.encode ≠ "" := by
  intro h
  have hdata := congrArg String.data h
  simp only [SignedJwt.encode, encStr, encNat, List.append_assoc, List.append_eq_nil] at hdata
  exact encNatAux_ne_nil _ _ hdata.1

theorem verify_encode (now : Nat) (t : SignedJwt) (hkey : t.key ≠ "") :
    jwt.verify now t.encode (some t.key) =
      if now ≥ t.claims.exp then .error TokenExpiredError else .ok t.claims := by
  unfold jwt.verify
  simp [encode_ne_empty, decode_encode, truthy, hkey]

theorem JWT_SECRET_ne_empty (env : Option String) : JWT_SECRET env ≠ "" := by
  unfold JWT_SECRET
  cases env with
  | none => decide
  | some k =>
    by_cases hk : k = ""
    · subst hk
      decide
    · simp [truthy, hk]

theorem timespan_access (iat : Nat) : timespan JWT_EXPIRES_IN iat = some (iat + 900) := by
  have h : ms JWT_EXPIRES_IN = some 900000 := by decide
  simp [timespan, h]

theorem timespan_refresh (iat : Nat) : timespan REFRESH_EXPIRES_IN iat = some (iat + 604800) := by
  have h : ms REFRESH_EXPIRES_IN = some 604800000 := by decide
  simp [timespan, h]

theorem generateTokenPair_eq (env : Option String) (now : Nat) (user : User) :
    AuthService.generateTokenPair env now user =
      .ok { accessToken := SignedJwt.encode
              { claims := { sub := user._id, role := user.accountStatus.role,
                            iat := now, exp := now + 900 },
                key := JWT_SECRET env },
            refreshToken := SignedJwt.encode
              { claims := { sub := user._id, role := user.accountStatus.role,
                            iat := now, exp := now + 604800 },
                key := JWT_SECRET env } } := by
  simp [AuthService.generateTokenPair, jwt.sign, timespan_access, timespan_refresh, truthy,
    JWT_SECRET_ne_empty]

theorem refreshToken_error (env : Option String) (db : List User) (now : Nat) (token : String)
    (e : JsError) (h : AuthService.refreshToken env db now token = .error e) :
    e = JsError.plain "Invalid token" := by
  unfold AuthService.refreshToken at h
  split at h
  · cases h; rfl
  · split at h
    · cases h; rfl
    · split at h
      · cases h; rfl
      · split at h
        · cases h; rfl
        · cases h

/-- C2, as stated, fails: the access token issued to `sampleUser` at second 1000,
handed to `AuthService.refreshToken` at second 1100, is accepted and a new token
pair is returned. -/
theorem C2_counterexample :
    AuthService.generateTokenPair none 1000 sampleUser =
      .ok { accessToken := sampleAccessToken, refreshToken := sampleRefreshToken } ∧
    AuthService.refreshToken none [sampleUser] 1100 sampleAccessToken =
      .ok { accessToken :=
              "2.711.94.1.4.711.511.101.411.0011.0002.8.99.401.79.011.301.101.901.101.",
            refreshToken :=
              "2.711.94.1.4.711.511.101.411.0011.009506.8.99.401.79.011.301.101.901.101." } := by
  decide

/-- C2, amended: `AuthService.refreshToken` called with the access token produced
by `AuthService.generateTokenPair` fails with no other error than "Invalid token",
and it returns a new token pair exactly when the token is presented before its
expiry (900 seconds after issue) and its subject is an active user of the store. -/
theorem C2_refresh_with_access_token (env : Option String) (db : List User) (user : User)
    (iat now : Nat) (pair : TokenPair)
    (hpair : AuthService.generateTokenPair env iat user = .ok pair) :
    (∀ e, AuthService.refreshToken env db now pair.accessToken = .error e →
      e = JsError.plain "Invalid token") ∧
    ((∃ p, AuthService.refreshToken env db now pair.accessToken = .ok p) ↔
      now < iat + 900 ∧
        ∃ u, User.findById db user._id = some u ∧ u.accountStatus.isActive = true) := by
  refine ⟨fun e he => refreshToken_error env db now _ e he, ?_⟩
  rw [generateTokenPair_eq] at hpair
  cases hpair
  unfold AuthService.refreshToken
  have hv := verify_encode now
    { claims := { sub := user._id, role := user.accountStatus.role, iat := iat,
                  exp := iat + 900 },
      key := JWT_SECRET env } (JWT_SECRET_ne_empty env)
  simp only at hv
  rw [hv]
  by_cases hexp : now ≥ iat + 900
  · simp only [hexp, if_true, reduceCtorEq, exists_false, false_iff, not_and]
    intro hlt
    omega
  · have hlt : now < iat + 900 := by omega
    simp only [hexp, if_false, hlt, true_and]
    cases hfind : User.findById db user._id with
    | none => simp
    | some u =>
      by_cases hact : u.accountStatus.isActive = true
      · simp [hact, generateTokenPair_eq]
      · simp [hact]

theorem C2_refresh_with_access_token_witness :
    (∃ p, AuthService.refreshToken none [sampleUser] 1100 sampleAccessToken = .ok p) ↔
      1100 < 1000 + 900 ∧
        ∃ u, User.findById [sampleUser] sampleUser._id = some u ∧
          u.accountStatus.isActive = true :=
  (C2_refresh_with_access_token none [sampleUser] sampleUser 1000 1100
    { accessToken := sampleAccessToken, refreshToken := sampleRefreshToken } (by decide)).2

/-- C3: when no user has the email, when the matching user is inactive, and when
the password does not match the stored hash, `AuthService.login` fails with the
one error "Invalid credentials" and `AuthController.login` answers with the one
response 401 "Invalid credentials". -/
theorem C3_login_failures_identical (env : Option String) (db : List User)
    (bcryptCompare : String → String → Bool) (now : Nat) (email password : String)
    (h : User.findOne db email = none ∨
      (∃ u, User.findOne db email = some u ∧ u.accountStatus.isActive = false) ∨
      (∃ u, User.findOne db email = some u ∧ bcryptCompare password u.password = false)) :
    AuthService.login env db bcryptCompare now email password =
      .error (JsError.plain "Invalid credentials") ∧
    AuthController.login env db bcryptCompare now email password =
      ⟨401, ApiResponse.error "Invalid credentials"⟩ := by
  have hlogin : AuthService.login env db bcryptCompare now email password =
      .error (JsError.plain "Invalid credentials") := by
    unfold AuthService.login
    rcases h with h | ⟨u, hu, hact⟩ | ⟨u, hu, hcmp⟩
    · simp [h]
    · simp [hu, hact]
    · by_cases hact : u.accountStatus.isActive = true
      · simp [hu, hact, hcmp]
      · simp [hu, hact]
  refine ⟨hlogin, ?_⟩
  unfold AuthController.login
  rw [hlogin]
  rfl

theorem C3_login_failures_identical_witness :
    (AuthController.login none [sampleUser] sampleCompare 1000 "nobody@x.com" "Abcdef12" =
        ⟨401, ApiResponse.error "Invalid credentials"⟩ ∧
      AuthController.login none [inactiveUser] sampleCompare 1000 "a@x.com" "Abcdef12" =
        ⟨401, ApiResponse.error "Invalid credentials"⟩ ∧
      AuthController.login none [sampleUser] sampleCompare 1000 "a@x.com" "wrong" =
        ⟨401, ApiResponse.error "Invalid credentials"⟩) ∧
    (AuthService.login none [sampleUser] sampleCompare 1000 "a@x.com" "Abcdef12").toBool =
      true :=
  ⟨⟨(C3_login_failures_identical none [sampleUser] sampleCompare 1000 "nobody@x.com" "Abcdef12"
      (Or.inl (by decide))).2,
    (C3_login_failures_identical none [inactiveUser] sampleCompare 1000 "a@x.com" "Abcdef12"
      (Or.inr (Or.inl ⟨inactiveUser, by decide, by decide⟩))).2,
    (C3_login_failures_identical none [sampleUser] sampleCompare 1000 "a@x.com" "wrong"
      (Or.inr (Or.inr ⟨sampleUser, by decide, by decide⟩))).2⟩,
   by decide⟩

end KickOff

/-! ## Tokens inside an authorization header -/

namespace KickOff

theorem digitChar_ne_space (d : Nat) (h : d < 10) : digitChar d ≠ ' ' := by
  interval_cases d <;> decide

theorem encNatAux_noSpace (fuel n : Nat) : ∀ c ∈ encNatAux fuel n, c ≠ ' ' := by
  induction fuel generalizing n with
  | zero =>
    intro c hc
    simp only [encNatAux, List.mem_singleton] at hc
    subst hc
    decide
  | succ f ih =>
    intro c hc
    unfold encNatAux at hc
    by_cases hn : n = 0
    · simp only [hn, if_true, List.mem_singleton] at hc
      subst hc
      decide
    · simp only [hn, if_false, List.mem_cons] at hc
      rcases hc with hc | hc
      · subst hc
        exact digitChar_ne_space _ (Nat.mod_lt _ (by decide))
      · exact ih _ c hc

theorem encChars_noSpace (cs : List Char) : ∀ c ∈ encChars cs, c ≠ ' ' := by
  induction cs with
  | nil => simp [encChars]
  | cons a as ih =>
    intro c hc
    simp only [encChars, List.mem_append] at hc
    rcases hc with hc | hc
    · exact encNatAux_noSpace _ _ c hc
    · exact ih c hc

theorem encStr_noSpace (s : String) : ∀ c ∈ encStr s, c ≠ ' ' := by
  intro c hc
  simp only [encStr, List.mem_append] at hc
  rcases hc with hc | hc
  · exact encNatAux_noSpace _ _ c hc
  · exact encChars_noSpace _ c hc

theorem encOptStr_noSpace (o : Option String) : ∀ c ∈ encOptStr o, c ≠ ' ' := by
  intro c hc
  cases o with
  | none => exact encNatAux_noSpace _ _ c hc
  | some s =>
    simp only [encOptStr, List.mem_append] at hc
    rcases hc with hc | hc
    · exact encNatAux_noSpace _ _ c hc
    · exact encStr_noSpace s c hc

theorem encode_noSpace (t : SignedJwt) : ∀ c ∈ t.encode.data, c ≠ ' ' := by
  intro c hc
  simp only [SignedJwt.encode, List.mem_append] at hc
  rcases hc with (((hc | hc) | hc) | hc) | hc
  · exact encStr_noSpace _ c hc
  · exact encOptStr_noSpace _ c hc
  · exact encNatAux_noSpace _ _ c hc
  · exact encNatAux_noSpace _ _ c hc
  · exact encStr_noSpace _ c hc

theorem splitSpaceChars_noSpace (cs : List Char) (h : ∀ c ∈ cs, c ≠ ' ') :
    splitSpaceChars cs = [cs] := by
  induction cs with
  | nil => rfl
  | cons a as ih =>
    have ha : a ≠ ' ' := h a (List.mem_cons_self _ _)
    have has : ∀ c ∈ as, c ≠ ' ' := fun c hc => h c (List.mem_cons_of_mem _ hc)
    simp [splitSpaceChars, ih has, ha]

theorem splitSpace_bearer (token : String) (h : ∀ c ∈ token.data, c ≠ ' ') :
    splitSpace ("Bearer " ++ token) = ["Bearer", token] := by
  have hdata : ("Bearer " ++ token).data =
      'B' :: 'e' :: 'a' :: 'r' :: 'e' :: 'r' :: ' ' :: token.data := by
    simp [String.data_append]
  simp [splitSpace, hdata, splitSpaceChars, splitSpaceChars_noSpace _ h]

theorem logoutToken_bearer (t : SignedJwt) :
    logoutToken (some ("Bearer " ++ t.encode)) = some t.encode := by
  simp [logoutToken, splitSpace_bearer _ (encode_noSpace t)]

theorem headerToken_bearer (t : SignedJwt) :
    headerToken (some ("Bearer " ++ t.encode)) = some t.encode := by
  have hne : "Bearer " ++ t.encode ≠ "" := by
    intro h
    have := congrArg String.data h
    simp [String.data_append] at this
  simp [headerToken, hne, splitSpace_bearer _ (encode_noSpace t)]

end KickOff

/-! ## Revocation entries and logout -/

namespace KickOff

theorem entryExpiry_add (r : Redis) (now : Nat) (t : String) (ttl : Option Nat)
    (hup : r.up = true) (ht : t ≠ "") :
    ∃ r', TokenBlacklistService.add r now (some t) ttl = .ok r' ∧ r'.up = true ∧
      entryExpiry r' t = some (now + ttl.getD 900) := by
  refine ⟨_, add_ok r now t ttl hup ht, rfl, ?_⟩
  simp [entryExpiry, List.find?_cons]

theorem logout_store (r : Redis) (t1 : Nat) (authorization : String) (t : String)
    (hup : r.up = true) (hlogout : logoutToken (some authorization) = some t) (ht : t ≠ "") :
    (AuthController.logout r t1 (some authorization)).redis.up = true ∧
    (AuthController.logout r t1 (some authorization)).redis.entries.find?
        (fun e => e.key = blacklistKey t) =
      some { key := blacklistKey t, value := "true", expiresAt := t1 + 900 } := by
  rw [logout_redis, hlogout]
  refine ⟨(applyAdd_up _ _).trans hup, ?_⟩
  rw [find_applyAdd r _ t hup ht]
  simp

/-- C11, as stated, fails: the token `abc` is added at second 1000 with the
default ttl (expiry 1900) and again at second 1010 with ttl 5; the entry then
expires at 1015, and at second 1100 the token is no longer blacklisted. -/
theorem C11_counterexample :
    entryExpiry (runAdds emptyStore [⟨1000, some "abc", none⟩]) "abc" = some 1900 ∧
    entryExpiry (runAdds emptyStore [⟨1000, some "abc", none⟩, ⟨1010, some "abc", some 5⟩])
      "abc" = some 1015 ∧
    TokenBlacklistService.isBlacklisted (runAdds emptyStore [⟨1000, some "abc", none⟩]) 1100
      (some "abc") = .ok true ∧
    TokenBlacklistService.isBlacklisted
      (runAdds emptyStore [⟨1000, some "abc", none⟩, ⟨1010, some "abc", some 5⟩]) 1100
      (some "abc") = .ok false := by
  decide

/-- C11, amended: on a reachable store, a second `add(token, ttl)` for a
non-empty token overwrites the entry: for every second and ttl of the two calls,
the expiry after the second call is the second of that call plus its ttl (900 by
default). It is not earlier than the expiry before the call when the second call
is made no earlier and with a ttl no smaller, as when both calls use the
default; it is earlier exactly when the second call's second plus ttl is smaller
than the first's. -/
theorem C11_second_add_overwrites_expiry (r : Redis) (t : String) (t1 t2 : Nat)
    (ttl1 ttl2 : Option Nat) (hup : r.up = true) (ht : t ≠ "") :
    ∃ r1 r2,
      TokenBlacklistService.add r t1 (some t) ttl1 = .ok r1 ∧
      TokenBlacklistService.add r1 t2 (some t) ttl2 = .ok r2 ∧
      entryExpiry r1 t = some (t1 + ttl1.getD 900) ∧
      entryExpiry r2 t = some (t2 + ttl2.getD 900) ∧
      ∀ e1 e2, entryExpiry r1 t = some e1 → entryExpiry r2 t = some e2 →
        (t1 ≤ t2 → ttl1.getD 900 ≤ ttl2.getD 900 → e1 ≤ e2) ∧
        (e2 < e1 ↔ t2 + ttl2.getD 900 < t1 + ttl1.getD 900) := by
  obtain ⟨r1, hadd1, hup1, he1⟩ := entryExpiry_add r t1 t ttl1 hup ht
  obtain ⟨r2, hadd2, _, he2⟩ := entryExpiry_add r1 t2 t ttl2 hup1 ht
  refine ⟨r1, r2, hadd1, hadd2, he1, he2, ?_⟩
  intro e1 e2 h1 h2
  rw [he1] at h1
  rw [he2] at h2
  cases h1
  cases h2
  exact ⟨fun _ _ => by omega, Iff.rfl⟩

theorem C11_second_add_overwrites_expiry_witness :
    ∃ r1 r2,
      TokenBlacklistService.add emptyStore 1000 (some "abc") none = .ok r1 ∧
      TokenBlacklistService.add r1 1010 (some "abc") (some 5) = .ok r2 ∧
      entryExpiry r1 "abc" = some (1000 + (none : Option Nat).getD 900) ∧
      entryExpiry r2 "abc" = some (1010 + (some 5).getD 900) ∧
      ∀ e1 e2, entryExpiry r1 "abc" = some e1 → entryExpiry r2 "abc" = some e2 →
        (1000 ≤ 1010 → (none : Option Nat).getD 900 ≤ (some 5).getD 900 → e1 ≤ e2) ∧
        (e2 < e1 ↔ 1010 + (some 5).getD 900 < 1000 + (none : Option Nat).getD 900) :=
  C11_second_add_overwrites_expiry emptyStore "abc" 1000 1010 none (some 5) rfl (by decide)

/-- C12: an access token issued by `generateTokenPair` at second `t0` and logged
out through `AuthController.logout` at a second `t1 ≥ t0` (reachable store) gets
a revocation entry that expires at `t1 + 900`, at or after the token's own
expiry `t0 + 900`; at every second from `t1` until the token expires the token
is reported blacklisted. -/
theorem C12_entry_covers_token_lifetime (env : Option String) (r : Redis) (user : User)
    (t0 t1 : Nat) (pair : TokenPair) (hup : r.up = true) (h01 : t0 ≤ t1)
    (hpair : AuthService.generateTokenPair env t0 user = .ok pair) :
    (∃ e x,
      entryExpiry (AuthController.logout r t1 (some ("Bearer " ++ pair.accessToken))).redis
        pair.accessToken = some e ∧
      SignedJwt.decode pair.accessToken = some x ∧
      e = t1 + 900 ∧ x.claims.exp = t0 + 900 ∧ x.claims.exp ≤ e) ∧
    ∀ now, t1 ≤ now → now < t0 + 900 →
      TokenBlacklistService.isBlacklisted
        (AuthController.logout r t1 (some ("Bearer " ++ pair.accessToken))).redis now
        (some pair.accessToken) = .ok true := by
  rw [generateTokenPair_eq] at hpair
  cases hpair
  have hstore := logout_store r t1 _ _ hup (logoutToken_bearer _) (encode_ne_empty
    { claims := { sub := user._id, role := user.accountStatus.role, iat := t0,
                  exp := t0 + 900 },
      key := JWT_SECRET env })
  refine ⟨⟨t1 + 900, _, ?_, decode_encode _, rfl, rfl, ?_⟩, ?_⟩
  · simp only [entryExpiry, hstore.2, Option.map_some']
  · show t0 + 900 ≤ t1 + 900
    omega
  · intro now _ hlt
    rw [isBlacklisted_of_find _ now _ hstore.1 (encode_ne_empty _), hstore.2]
    have : now < t1 + 900 := by omega
    simp [truthy, this]

theorem C12_entry_covers_token_lifetime_witness :
    TokenBlacklistService.isBlacklisted
        (AuthController.logout emptyStore 1500
          (some ("Bearer " ++ sampleAccessToken))).redis 1899
        (some sampleAccessToken) = .ok true :=
  (C12_entry_covers_token_lifetime none emptyStore sampleUser 1000 1500
    { accessToken := sampleAccessToken, refreshToken := sampleRefreshToken }
    rfl (by decide) (by decide)).2 1899 (by decide) (by decide)

end KickOff

/-! ## `AuthService.logout` -/

namespace KickOff

theorem serviceLogout_redis (env : Option String) (r : Redis)
    (findByIdAndUpdate : String → Except JsError Unit) (now : Nat) (token : Option String) :
    (AuthService.logout env r findByIdAndUpdate now token).redis = r := by
  unfold AuthService.logout
  split
  · rfl
  · split
    · rfl
    · split
      · rfl
      · split
        · split <;> rfl
        · rfl

/-- C13, as stated, fails: `AuthService.logout` called with the valid access
token of `sampleUser`, or with the malformed token `garbage`, returns and leaves
the store empty; `isBlacklisted` of that token is `false` afterwards. -/
theorem C13_counterexample :
    (AuthService.logout none emptyStore (fun _ => .ok ()) 1100 (some sampleAccessToken)).result
      = .ok () ∧
    TokenBlacklistService.isBlacklisted
      (AuthService.logout none emptyStore (fun _ => .ok ()) 1100
        (some sampleAccessToken)).redis 1100 (some sampleAccessToken) = .ok false ∧
    TokenBlacklistService.isBlacklisted
      (AuthService.logout none emptyStore (fun _ => .ok ()) 1100 (some "garbage")).redis 1100
      (some "garbage") = .ok false := by
  decide

/-- C13, amended: `AuthService.logout` leaves the revocation store as it was; it
is `AuthController.logout` that pushes a non-empty bearer token into the store
(when reachable), after which `isBlacklisted(token)` returns `true` until the
entry expires 900 seconds later, whether or not the token verifies. -/
theorem C13_controller_logout_revokes (env : Option String) (r : Redis)
    (findByIdAndUpdate : String → Except JsError Unit) (t1 now : Nat)
    (authorization t : String) (hup : r.up = true)
    (hlogout : logoutToken (some authorization) = some t) (ht : t ≠ "")
    (hnow : now < t1 + 900) :
    (AuthService.logout env r findByIdAndUpdate t1 (some t)).redis = r ∧
    TokenBlacklistService.isBlacklisted
      (AuthController.logout r t1 (some authorization)).redis now (some t) = .ok true := by
  refine ⟨serviceLogout_redis env r findByIdAndUpdate t1 (some t), ?_⟩
  have hstore := logout_store r t1 authorization t hup hlogout ht
  rw [isBlacklisted_of_find _ now t hstore.1 ht, hstore.2]
  simp [truthy, hnow]

theorem C13_controller_logout_revokes_witness :
    (AuthService.logout none emptyStore (fun _ => .ok ()) 1100 (some "garbage")).redis =
      emptyStore ∧
    TokenBlacklistService.isBlacklisted
      (AuthController.logout emptyStore 1100 (some "Bearer garbage")).redis 1999
      (some "garbage") = .ok true :=
  C13_controller_logout_revokes none emptyStore (fun _ => .ok ()) 1100 1999
    "Bearer garbage" "garbage" rfl (by decide) (by decide) (by decide)

/-- C14: with no token supplied (`undefined` or the empty string),
`AuthService.logout` returns normally without logging or updating anything,
`TokenBlacklistService.add` returns the store it was given, and
`AuthController.logout` answers 200 with the store unchanged; none of this
depends on the store being reachable. -/
theorem C14_logout_without_token (env : Option String) (r : Redis)
    (findByIdAndUpdate : String → Except JsError Unit) (now : Nat)
    (token : Option String) (ttl : Option Nat) (authorization : Option String)
    (htoken : truthy token = false) (hheader : truthy (logoutToken authorization) = false) :
    AuthService.logout env r findByIdAndUpdate now token =
      { result := .ok (), redis := r, updated := [], logged := [] } ∧
    TokenBlacklistService.add r now token ttl = .ok r ∧
    AuthController.logout r now authorization =
      { redis := r, response := ⟨200, ApiResponse.success .null "Logged out successfully"⟩,
        clearedCookies := ["refreshToken"] } := by
  refine ⟨?_, ?_, ?_⟩
  · cases token with
    | none => rfl
    | some t =>
      have ht : t = "" := by simpa [truthy] using htoken
      simp [AuthService.logout, ht]
  · cases token with
    | none => rfl
    | some t =>
      have ht : t = "" := by simpa [truthy] using htoken
      simp [TokenBlacklistService.add, ht]
  · unfold AuthController.logout
    simp [hheader]

theorem C14_logout_without_token_witness :
    (AuthService.logout none downStore failingUpdate 1000 none =
        { result := .ok (), redis := downStore, updated := [], logged := [] } ∧
      TokenBlacklistService.add downStore 1000 none none = .ok downStore ∧
      AuthController.logout downStore 1000 none =
        { redis := downStore,
          response := ⟨200, ApiResponse.success .null "Logged out successfully"⟩,
          clearedCookies := ["refreshToken"] }) ∧
    (AuthService.logout none emptyStore failingUpdate 1000 (some "") =
        { result := .ok (), redis := emptyStore, updated := [], logged := [] } ∧
      TokenBlacklistService.add emptyStore 1000 (some "") (some 60) = .ok emptyStore ∧
      AuthController.logout emptyStore 1000 (some "Bearer") =
        { redis := emptyStore,
          response := ⟨200, ApiResponse.success .null "Logged out successfully"⟩,
          clearedCookies := ["refreshToken"] }) :=
  ⟨C14_logout_without_token none downStore failingUpdate 1000 none none none
      (by decide) (by decide),
   C14_logout_without_token none emptyStore failingUpdate 1000 (some "") (some 60)
      (some "Bearer") (by decide) (by decide)⟩

/-- C15: `AuthService.logout` never raises: for every token, every signing
secret, every second and every outcome of the user-collection update, the call
returns normally; a failure of verification or of the update is written to the
log instead of being thrown. -/
theorem C15_service_logout_never_raises (env : Option String) (r : Redis)
    (findByIdAndUpdate : String → Except JsError Unit) (now : Nat)
    (token : Option String) :
    (AuthService.logout env r findByIdAndUpdate now token).result = .ok () ∧
    (∀ t e, token = some t → t ≠ "" →
      jwt.verify now t (some (JWT_SECRET env)) = .error e →
      (AuthService.logout env r findByIdAndUpdate now token).logged = [e]) ∧
    (∀ t decoded e, token = some t → t ≠ "" →
      jwt.verify now t (some (JWT_SECRET env)) = .ok decoded → decoded.sub ≠ "" →
      findByIdAndUpdate decoded.sub = .error e →
      (AuthService.logout env r findByIdAndUpdate now token).logged = [e]) := by
  refine ⟨?_, ?_, ?_⟩
  · unfold AuthService.logout
    split
    · rfl
    · split
      · rfl
      · split
        · rfl
        · split
          · split <;> rfl
          · rfl
  · intro t e htok hne hv
    subst htok
    simp [AuthService.logout, hne, hv]
  · intro t decoded e htok hne hv hsub hupd
    subst htok
    simp [AuthService.logout, hne, hv, hsub, hupd]

end KickOff

/-! ## The authorization stage -/

namespace KickOff

theorem authorizeRoles_of_role (allowedRoles : List String) (u : Claims) (role : String)
    (hrole : u.role = some role) (hne : role ≠ "") :
    authorizeRoles allowedRoles (some u) =
      if allowedRoles = [] then
        { response := some ⟨500, ApiResponse.error "Server configuration error: No roles specified"⟩,
          nextCalled := false, user := some u, thrown := none, calls := [] }
      else if role ∈ allowedRoles then
        { response := none, nextCalled := true, user := some u, thrown := none, calls := [] }
      else
        { response := some ⟨403, ApiResponse.error "Access denied: Insufficient permissions"⟩,
          nextCalled := false, user := some u, thrown := none, calls := [] } := by
  unfold authorizeRoles
  by_cases hnil : allowedRoles = []
  · simp [hrole, truthy, hne, hnil]
  · by_cases hmem : role ∈ allowedRoles
    · simp [hrole, truthy, hne, hnil, hmem]
    · simp [hrole, truthy, hne, hnil, hmem]

theorem authorizeRoles_of_no_role (allowedRoles : List String) (user : Option Claims)
    (h : ∀ u, user = some u → truthy u.role = false) :
    authorizeRoles allowedRoles user =
      { response := some ⟨403, ApiResponse.error "Access denied: No role specified"⟩,
        nextCalled := false, user := user, thrown := none, calls := [] } := by
  cases user with
  | none => rfl
  | some u => simp [authorizeRoles, h u rfl]

/-- C16: the middleware of `authorizeRoles` calls `next` exactly when the request
has a user with a non-empty role, the allow-set is not empty and the role is one
of its members; a request without a role is answered 403 "Access denied: No role
specified"; a role outside a non-empty allow-set is answered 403 "Access denied:
Insufficient permissions"; and `next` is called exactly when no response is sent. -/
theorem C16_next_iff_role_allowed (allowedRoles : List String) (user : Option Claims) :
    ((authorizeRoles allowedRoles user).nextCalled = true ↔
      ∃ u role, user = some u ∧ u.role = some role ∧ role ≠ "" ∧ allowedRoles ≠ [] ∧
        role ∈ allowedRoles) ∧
    ((∀ u, user = some u → truthy u.role = false) →
      authorizeRoles allowedRoles user =
        { response := some ⟨403, ApiResponse.error "Access denied: No role specified"⟩,
          nextCalled := false, user := user, thrown := none, calls := [] }) ∧
    (∀ u role, user = some u → u.role = some role → role ≠ "" → allowedRoles ≠ [] →
      role ∉ allowedRoles →
      authorizeRoles allowedRoles user =
        { response := some ⟨403, ApiResponse.error "Access denied: Insufficient permissions"⟩,
          nextCalled := false, user := user, thrown := none, calls := [] }) ∧
    ((authorizeRoles allowedRoles user).nextCalled = true ↔
      (authorizeRoles allowedRoles user).response = none) := by
  have hcases : (∀ u, user = some u → truthy u.role = false) ∨
      ∃ u role, user = some u ∧ u.role = some role ∧ role ≠ "" := by
    cases user with
    | none => exact Or.inl (fun u h => by cases h)
    | some u =>
      cases hr : u.role with
      | none =>
        refine Or.inl (fun u' h => ?_)
        cases h
        simp [hr, truthy]
      | some role =>
        by_cases hne : role = ""
        · refine Or.inl (fun u' h => ?_)
          cases h
          simp [hr, truthy, hne]
        · exact Or.inr ⟨u, role, rfl, hr, hne⟩
  refine ⟨?_, authorizeRoles_of_no_role allowedRoles user, ?_, ?_⟩
  · rcases hcases with hno | ⟨u, role, hu, hrole, hne⟩
    · rw [authorizeRoles_of_no_role allowedRoles user hno]
      simp only [Bool.false_eq_true, false_iff, not_exists, not_and]
      intro u role hu hrole hne
      have := hno u hu
      simp [hrole, truthy, hne] at this
    · subst hu
      rw [authorizeRoles_of_role allowedRoles u role hrole hne]
      by_cases hnil : allowedRoles = []
      · simp [hnil]
      · by_cases hmem : role ∈ allowedRoles
        · simp only [hnil, if_false, hmem, if_true, true_iff]
          exact ⟨u, role, rfl, hrole, hne, hnil, hmem⟩
        · simp only [hnil, if_false, hmem, Bool.false_eq_true, false_iff, not_exists, not_and]
          intro u' role' hu' hrole' _ _ hmem'
          cases hu'
          rw [hrole] at hrole'
          cases hrole'
          exact absurd hmem' hmem
  · intro u role hu hrole hne hnil hmem
    subst hu
    rw [authorizeRoles_of_role allowedRoles u role hrole hne]
    simp [hnil, hmem]
  · rcases hcases with hno | ⟨u, role, hu, hrole, hne⟩
    · rw [authorizeRoles_of_no_role allowedRoles user hno]
      simp
    · subst hu
      rw [authorizeRoles_of_role allowedRoles u role hrole hne]
      by_cases hnil : allowedRoles = []
      · simp [hnil]
      · by_cases hmem : role ∈ allowedRoles
        · simp [hnil, hmem]
        · simp [hnil, hmem]

/-- C17, as stated, fails: with an empty allow-set, a request without a user
context, and one whose user has no role, are answered 403 "Access denied: No role
specified", not 500. -/
theorem C17_counterexample :
    authorizeRoles [] none =
      { response := some ⟨403, ApiResponse.error "Access denied: No role specified"⟩,
        nextCalled := false, user := none, thrown := none, calls := [] } ∧
    (authorizeRoles [] (some { sub := "u1", role := none, iat := 1000, exp := 1900 })).response =
      some ⟨403, ApiResponse.error "Access denied: No role specified"⟩ := by
  decide

/-- C17, amended: a request without a user or without a role is answered 403
"Access denied: No role specified" whatever the allow-set, the empty one
included; a request whose user carries a non-empty role, met by an
`authorizeRoles` built with an empty allow-set, is answered 500 "Server
configuration error: No roles specified" without a call of `next`, a response
that differs from every 403 response of the authorization stage. -/
theorem C17_empty_allow_set_is_server_fault (user : Option Claims) :
    ((∀ u, user = some u → truthy u.role = false) →
      ∀ allowedRoles : List String,
        authorizeRoles allowedRoles user =
          { response := some ⟨403, ApiResponse.error "Access denied: No role specified"⟩,
            nextCalled := false, user := user, thrown := none, calls := [] }) ∧
    (∀ u role, user = some u → u.role = some role → role ≠ "" →
      authorizeRoles [] user =
        { response :=
            some ⟨500, ApiResponse.error "Server configuration error: No roles specified"⟩,
          nextCalled := false, user := user, thrown := none, calls := [] } ∧
      ∀ (allowedRoles : List String) (user2 : Option Claims) (resp : HttpResponse),
        (authorizeRoles allowedRoles user2).response = some resp → resp.status = 403 →
        (authorizeRoles [] user).response ≠ (authorizeRoles allowedRoles user2).response) := by
  refine ⟨fun hno allowedRoles => authorizeRoles_of_no_role allowedRoles user hno, ?_⟩
  intro u role hu hrole hne
  subst hu
  have hmain := authorizeRoles_of_role [] u role hrole hne
  simp only [if_true] at hmain
  refine ⟨hmain, ?_⟩
  intro allowedRoles user2 resp hresp hstatus
  rw [hmain, hresp]
  intro h
  simp only [Option.some.injEq] at h
  rw [← h] at hstatus
  exact absurd hstatus (by decide)

theorem C17_empty_allow_set_is_server_fault_witness :
    authorizeRoles [] (some { sub := "u1", role := some "user", iat := 1000, exp := 1900 }) =
      { response :=
          some ⟨500, ApiResponse.error "Server configuration error: No roles specified"⟩,
        nextCalled := false,
        user := some { sub := "u1", role := some "user", iat := 1000, exp := 1900 },
        thrown := none, calls := [] } ∧
    authorizeRoles [] none =
      { response := some ⟨403, ApiResponse.error "Access denied: No role specified"⟩,
        nextCalled := false, user := none, thrown := none, calls := [] } :=
  ⟨((C17_empty_allow_set_is_server_fault
      (some { sub := "u1", role := some "user", iat := 1000, exp := 1900 })).2
      { sub := "u1", role := some "user", iat := 1000, exp := 1900 } "user" rfl rfl
      (by decide)).1,
   (C17_empty_allow_set_is_server_fault none).1 (fun u h => by cases h) []⟩

end KickOff

/-! ## Registration and login -/

namespace KickOff

/-- C18: when a user with the submitted email is already in the collection,
`AuthService.register` fails with "Email already registered", hands nothing to
`User.create`, leaves the collection as it was and issues no token pair. -/
theorem C18_register_conflict (env : Option String) (db : List User)
    (bcryptHash : String → Nat → String) (create : NewUserRecord → Except JsError User)
    (now : Nat) (userData : RegisterData) (existing : User)
    (h : User.findOne db userData.email = some existing) :
    AuthService.register env db bcryptHash create now userData =
      { result := .error (JsError.plain "Email already registered"), db := db,
        handed := [] } := by
  simp [AuthService.register, h]

theorem C18_register_conflict_witness :
    AuthService.register none [sampleUser] sampleHash
        (fun record => User.create "u2" noFormatErrors record.toInput) 1000
        { name := some "Bob", email := "a@x.com", password := "Abcdef12", role := some "admin" } =
      { result := .error (JsError.plain "Email already registered"), db := [sampleUser],
        handed := [] } :=
  C18_register_conflict none [sampleUser] sampleHash
    (fun record => User.create "u2" noFormatErrors record.toInput) 1000
    { name := some "Bob", email := "a@x.com", password := "Abcdef12", role := some "admin" }
    sampleUser (by decide)

theorem create_accepts_complete_document :
    User.create "u9" noFormatErrors
        { username := some "bob_1", email := some "b@x.com", password := some "hash:Abcdef12",
          profile_firstName := some "Bob", profile_lastName := some "Lee",
          accountStatus_isVerified := none, accountStatus_isActive := none,
          accountStatus_role := none } =
      .ok { _id := "u9", name := none, email := "b@x.com", password := "hash:Abcdef12",
            role := none,
            accountStatus := { isVerified := false, isActive := true, role := some "user" } } := by
  decide

theorem create_rejects_register_record (newId : String)
    (formatErrors : UserInput → List String) (record : NewUserRecord) :
    ∃ e, User.create newId formatErrors record.toInput = .error e ∧
      e.name = "ValidationError" := by
  unfold User.create User.requiredErrors NewUserRecord.toInput
  simp [truthy]

theorem register_hands_record (env : Option String) (db : List User)
    (bcryptHash : String → Nat → String) (create : NewUserRecord → Except JsError User)
    (now : Nat) (userData : RegisterData) (h : User.findOne db userData.email = none) :
    (AuthService.register env db bcryptHash create now userData).handed =
      [{ name := userData.name, email := userData.email,
         password := bcryptHash userData.password 10, role := userData.role,
         accountStatus_isVerified := false, accountStatus_isActive := true }] := by
  unfold AuthService.register
  simp only [h]
  split
  · rfl
  · split <;> rfl

theorem register_never_succeeds (env : Option String) (db : List User)
    (bcryptHash : String → Nat → String) (newId : String)
    (formatErrors : UserInput → List String) (now : Nat) (userData : RegisterData)
    (res : AuthResult) :
    (AuthService.register env db bcryptHash
      (fun record => User.create newId formatErrors record.toInput) now userData).result ≠
      .ok res := by
  unfold AuthService.register
  cases hfind : User.findOne db userData.email with
  | some u => simp
  | none =>
    obtain ⟨e, he, _⟩ := create_rejects_register_record newId formatErrors
      { name := userData.name, email := userData.email,
        password := bcryptHash userData.password 10, role := userData.role,
        accountStatus_isVerified := false, accountStatus_isActive := true }
    simp [he]

/-- C19: the code at the failing input. On an empty collection,
`AuthService.register({ name: 'Bob', email: 'b@x.com', password: 'Abcdef12' })`
hands `User.create` a record with `isVerified = false`, `isActive = true` and
the hashed password, but without the `username`, `profile.firstName` and
`profile.lastName` that the schema requires: `User.create` rejects it with a
validation error, register raises, no user is stored and no token pair is
returned. -/
theorem C19_register_rejected_by_schema :
    AuthService.register none [] sampleHash
        (fun record => User.create "u2" noFormatErrors record.toInput) 1000
        { name := some "Bob", email := "b@x.com", password := "Abcdef12", role := none } =
      { result := .error
          { name := "ValidationError",
            message := "User validation failed: username: Username is required, profile.firstName: First name is required, profile.lastName: Last name is required" },
        db := [],
        handed := [{ name := some "Bob", email := "b@x.com", password := "hash:Abcdef12",
                     role := none, accountStatus_isVerified := false,
                     accountStatus_isActive := true }] } := by
  decide

theorem login_token_claims (env : Option String) (db : List User)
    (bcryptCompare : String → String → Bool) (now : Nat) (email password : String)
    (res : AuthResult)
    (h : AuthService.login env db bcryptCompare now email password = .ok res) :
    ∃ user, User.findOne db email = some user ∧ user.accountStatus.isActive = true ∧
      jwt.verify now res.tokens.accessToken (some (JWT_SECRET env)) =
        .ok { sub := user._id, role := user.accountStatus.role, iat := now,
              exp := now + 900 } ∧
      res.user._id = user._id ∧ res.user.role = user.role := by
  unfold AuthService.login at h
  cases hfind : User.findOne db email with
  | none => simp [hfind] at h
  | some user =>
    by_cases hact : user.accountStatus.isActive = true
    · by_cases hcmp : bcryptCompare password user.password = true
      · simp only [hfind, hact, hcmp, Bool.not_true, Bool.false_eq_true, if_false,
          generateTokenPair_eq, Except.ok.injEq] at h
        subst h
        refine ⟨user, rfl, hact, ?_, rfl, rfl⟩
        have hv := verify_encode now
          { claims := { sub := user._id, role := user.accountStatus.role, iat := now,
                        exp := now + 900 },
            key := JWT_SECRET env } (JWT_SECRET_ne_empty env)
        simp only at hv
        rw [hv]
        simp
      · simp [hfind, hact, hcmp] at h
    · simp [hfind, hact] at h

/-- C20: the code at the failing input. `sampleUser` is an active user as the
schema stores it (the role under `accountStatus`, none at the top level); login
with the matching password succeeds, verifying the returned access token yields
subject `u1` and role `user`, and the user object that login returns has the
same id but no role. -/
theorem C20_login_role_mismatch :
    AuthService.login none [sampleUser] sampleCompare 1000 "a@x.com" "Abcdef12" =
      .ok { user := { _id := "u1", name := none, email := "a@x.com", role := none,
                      isVerified := false },
            tokens := { accessToken := sampleAccessToken,
                        refreshToken := sampleRefreshToken } } ∧
    jwt.verify 1000 sampleAccessToken (some (JWT_SECRET none)) =
      .ok { sub := "u1", role := some "user", iat := 1000, exp := 1900 } ∧
    sampleUser.accountStatus.role = some "user" ∧ sampleUser.role = none := by
  decide

end KickOff

/-! ## Token lifetimes and the signing secret -/

namespace KickOff

theorem JWT_SECRET_of_truthy (env : Option String) (h : truthy env = true) :
    some (JWT_SECRET env) = env := by
  cases env with
  | none => simp [truthy] at h
  | some k => simp [JWT_SECRET, h]

theorem JWT_SECRET_of_falsy (env : Option String) (h : truthy env = false) :
    JWT_SECRET env = "changeme" := by
  simp [JWT_SECRET, h]

theorem verify_without_secret (now : Nat) (t : SignedJwt) (env : Option String)
    (h : truthy env = false) :
    jwt.verify now t.encode env =
      .error (JsonWebTokenError "secret or public key must be provided") := by
  unfold jwt.verify
  simp [encode_ne_empty, decode_encode, h]

theorem sign_without_secret (now : Nat) (payload : JwtPayload) (env : Option String)
    (span : String) (exp : Nat) (hspan : timespan span now = some exp)
    (h : truthy env = false) :
    jwt.sign now payload env span =
      .error (JsError.plain "secretOrPrivateKey must have a value") := by
  simp [jwt.sign, hspan, h]

theorem timespan_15m (iat : Nat) : timespan "15m" iat = some (iat + 900) :=
  timespan_access iat

theorem timespan_7d (iat : Nat) : timespan "7d" iat = some (iat + 604800) :=
  timespan_refresh iat

theorem tokenUtils_access_eq (env : Option String) (iat : Nat) (user : User) :
    TokenUtils.generateAccessToken env iat user =
      if truthy env then
        .ok (SignedJwt.encode
          { claims := { sub := user._id, role := user.role, iat := iat, exp := iat + 900 },
            key := env.getD "" })
      else .error (JsError.plain "secretOrPrivateKey must have a value") := by
  unfold TokenUtils.generateAccessToken jwt.sign
  rw [timespan_15m]

theorem tokenUtils_refresh_eq (env : Option String) (iat : Nat) (user : User) :
    TokenUtils.generateRefreshToken env iat user =
      if truthy env then
        .ok (SignedJwt.encode
          { claims := { sub := user._id, role := none, iat := iat, exp := iat + 604800 },
            key := env.getD "" })
      else .error (JsError.plain "secretOrPrivateKey must have a value") := by
  unfold TokenUtils.generateRefreshToken jwt.sign
  rw [timespan_7d]

/-- C21: for every user, secret and issue second `iat`, `generateTokenPair`
returns an access token whose claims carry `iat` and `exp = iat + 900` and a
refresh token with `exp = iat + 604800`; the access token verifies until second
`iat + 900` and is expired from then on, the refresh token until `iat + 604800`.
The generators of `TokenUtils` use the same two lifetimes: whenever
`JWT_SECRET` is set, `generateAccessToken` returns a token with `exp = iat + 900`
and `generateRefreshToken` one with `exp = iat + 604800`, each verifying under
that secret until its expiry second; without a secret they return no token. -/
theorem C21_token_lifetimes (env : Option String) (user : User) (iat : Nat) :
    (∃ pair a f,
      AuthService.generateTokenPair env iat user = .ok pair ∧
      SignedJwt.decode pair.accessToken = some a ∧
      SignedJwt.decode pair.refreshToken = some f ∧
      a.claims.iat = iat ∧ a.claims.exp = iat + 900 ∧
      f.claims.iat = iat ∧ f.claims.exp = iat + 604800 ∧
      (∀ now, jwt.verify now pair.accessToken (some (JWT_SECRET env)) =
        if now ≥ iat + 900 then .error TokenExpiredError else .ok a.claims) ∧
      (∀ now, jwt.verify now pair.refreshToken (some (JWT_SECRET env)) =
        if now ≥ iat + 604800 then .error TokenExpiredError else .ok f.claims)) ∧
    (∀ token, TokenUtils.generateAccessToken env iat user = .ok token →
      ∃ a, SignedJwt.decode token = some a ∧ a.claims.iat = iat ∧
        a.claims.exp = iat + 900) ∧
    (∀ token, TokenUtils.generateRefreshToken env iat user = .ok token →
      ∃ f, SignedJwt.decode token = some f ∧ f.claims.iat = iat ∧
        f.claims.exp = iat + 604800) ∧
    (truthy env = true →
      ∃ token a,
        TokenUtils.generateAccessToken env iat user = .ok token ∧
        SignedJwt.decode token = some a ∧
        a.claims = { sub := user._id, role := user.role, iat := iat, exp := iat + 900 } ∧
        ∀ now, jwt.verify now token env =
          if now ≥ iat + 900 then .error TokenExpiredError else .ok a.claims) ∧
    (truthy env = true →
      ∃ token f,
        TokenUtils.generateRefreshToken env iat user = .ok token ∧
        SignedJwt.decode token = some f ∧
        f.claims = { sub := user._id, role := none, iat := iat, exp := iat + 604800 } ∧
        ∀ now, jwt.verify now token env =
          if now ≥ iat + 604800 then .error TokenExpiredError else .ok f.claims) ∧
    (truthy env = false →
      TokenUtils.generateAccessToken env iat user =
        .error (JsError.plain "secretOrPrivateKey must have a value") ∧
      TokenUtils.generateRefreshToken env iat user =
        .error (JsError.plain "secretOrPrivateKey must have a value")) := by
  have hsecret : ∀ k : String, env = some k → truthy env = true → k ≠ "" := by
    intro k hk htruthy
    subst hk
    simpa [truthy] using htruthy
  refine ⟨⟨_, _, _, generateTokenPair_eq env iat user, decode_encode _, decode_encode _,
    rfl, rfl, rfl, rfl, ?_, ?_⟩, ?_, ?_, ?_, ?_, ?_⟩
  · intro now
    exact verify_encode now
      { claims := { sub := user._id, role := user.accountStatus.role, iat := iat,
                    exp := iat + 900 },
        key := JWT_SECRET env } (JWT_SECRET_ne_empty env)
  · intro now
    exact verify_encode now
      { claims := { sub := user._id, role := user.accountStatus.role, iat := iat,
                    exp := iat + 604800 },
        key := JWT_SECRET env } (JWT_SECRET_ne_empty env)
  · intro token h
    obtain ⟨exp, key, hspan, _, _, htok⟩ := sign_ok iat _ env "15m" token h
    rw [timespan_15m] at hspan
    cases hspan
    exact ⟨_, htok ▸ decode_encode _, rfl, rfl⟩
  · intro token h
    obtain ⟨exp, key, hspan, _, _, htok⟩ := sign_ok iat _ env "7d" token h
    rw [timespan_7d] at hspan
    cases hspan
    exact ⟨_, htok ▸ decode_encode _, rfl, rfl⟩
  · intro htruthy
    cases henv : env with
    | none => simp [henv, truthy] at htruthy
    | some k =>
      have hk := hsecret k henv htruthy
      refine ⟨SignedJwt.encode
          { claims := { sub := user._id, role := user.role, iat := iat, exp := iat + 900 },
            key := k },
        { claims := { sub := user._id, role := user.role, iat := iat, exp := iat + 900 },
          key := k }, ?_, decode_encode _, rfl, ?_⟩
      · rw [tokenUtils_access_eq]
        simp [truthy, hk]
      · intro now
        exact verify_encode now
          { claims := { sub := user._id, role := user.role, iat := iat, exp := iat + 900 },
            key := k } hk
  · intro htruthy
    cases henv : env with
    | none => simp [henv, truthy] at htruthy
    | some k =>
      have hk := hsecret k henv htruthy
      refine ⟨SignedJwt.encode
          { claims := { sub := user._id, role := none, iat := iat, exp := iat + 604800 },
            key := k },
        { claims := { sub := user._id, role := none, iat := iat, exp := iat + 604800 },
          key := k }, ?_, decode_encode _, rfl, ?_⟩
      · rw [tokenUtils_refresh_eq]
        simp [truthy, hk]
      · intro now
        exact verify_encode now
          { claims := { sub := user._id, role := none, iat := iat, exp := iat + 604800 },
            key := k } hk
  · intro hfalsy
    exact ⟨by rw [tokenUtils_access_eq]; simp [hfalsy],
      by rw [tokenUtils_refresh_eq]; simp [hfalsy]⟩

theorem C21_token_lifetimes_witness :
    (TokenUtils.generateAccessToken (some "changeme") 1000 sampleUser).map
        SignedJwt.decode =
      .ok (some { claims := { sub := "u1", role := none, iat := 1000, exp := 1900 },
                  key := "changeme" }) ∧
    (TokenUtils.generateRefreshToken (some "changeme") 1000 sampleUser).map
        SignedJwt.decode =
      .ok (some { claims := { sub := "u1", role := none, iat := 1000, exp := 605800 },
                  key := "changeme" }) ∧
    (∃ token a,
      TokenUtils.generateAccessToken (some "changeme") 1000 sampleUser = .ok token ∧
      SignedJwt.decode token = some a ∧
      a.claims = { sub := sampleUser._id, role := sampleUser.role, iat := 1000,
                   exp := 1000 + 900 } ∧
      ∀ now, jwt.verify now token (some "changeme") =
        if now ≥ 1000 + 900 then .error TokenExpiredError else .ok a.claims) :=
  ⟨by decide, by decide,
   (C21_token_lifetimes (some "changeme") sampleUser 1000).2.2.2.1 (by decide)⟩

/-- C22, as stated, fails: with `JWT_SECRET` unset, `generateTokenPair` for
`sampleUser` at second 1000 returns a token pair. -/
theorem C22_counterexample :
    AuthService.generateTokenPair none 1000 sampleUser =
      .ok { accessToken := sampleAccessToken, refreshToken := sampleRefreshToken } ∧
    JWT_SECRET none = "changeme" := by
  decide

/-- C22, amended: when `JWT_SECRET` is unset or empty, `generateTokenPair` does
not raise: it signs both tokens with the fallback secret `changeme` and returns
them. It is `jwt.sign` without a secret that fails with a configuration error,
as in the generators of `TokenUtils`, which pass `process.env.JWT_SECRET` as it is. -/
theorem C22_fallback_secret (env : Option String) (now : Nat) (user : User)
    (h : truthy env = false) :
    AuthService.generateTokenPair env now user =
      .ok { accessToken := SignedJwt.encode
              { claims := { sub := user._id, role := user.accountStatus.role,
                            iat := now, exp := now + 900 },
                key := "changeme" },
            refreshToken := SignedJwt.encode
              { claims := { sub := user._id, role := user.accountStatus.role,
                            iat := now, exp := now + 604800 },
                key := "changeme" } } ∧
    TokenUtils.generateAccessToken env now user =
      .error (JsError.plain "secretOrPrivateKey must have a value") ∧
    TokenUtils.generateRefreshToken env now user =
      .error (JsError.plain "secretOrPrivateKey must have a value") := by
  refine ⟨?_, ?_, ?_⟩
  · rw [generateTokenPair_eq, JWT_SECRET_of_falsy env h]
  · exact sign_without_secret now _ env "15m" _ (timespan_15m now) h
  · exact sign_without_secret now _ env "7d" _ (timespan_7d now) h

theorem C22_fallback_secret_witness :
    (AuthService.generateTokenPair (some "") 1000 sampleUser).toBool = true ∧
    TokenUtils.generateAccessToken none 1000 sampleUser =
      .error (JsError.plain "secretOrPrivateKey must have a value") :=
  ⟨by decide, (C22_fallback_secret none 1000 sampleUser (by decide)).2.1⟩

/-- C23, as stated, fails: `TokenUtils.verifyToken` raises the same error for the
access token of `sampleUser` once expired (second 1900, right secret), for the
same token under another secret, and for the malformed token `garbage`. -/
theorem C23_counterexample :
    jwt.verify 1900 sampleAccessToken (some "changeme") = .error TokenExpiredError ∧
    TokenUtils.verifyToken (some "changeme") 1900 sampleAccessToken =
      .error (JsError.plain "Invalid token") ∧
    TokenUtils.verifyToken (some "other-secret") 1100 sampleAccessToken =
      .error (JsError.plain "Invalid token") ∧
    TokenUtils.verifyToken (some "changeme") 1100 "garbage" =
      .error (JsError.plain "Invalid token") := by
  decide

/-- C23, amended: `TokenUtils.verifyToken` fails exactly when `jwt.verify` fails,
and always with the single error "Invalid token", so the caller cannot tell an
expired token from a wrongly signed or malformed one; the two kinds differ only
in what `jwt.verify` itself raises, `TokenExpiredError` for the former and an
error named `JsonWebTokenError` for the latter. -/
theorem C23_verifyToken_single_error (env : Option String) (now : Nat) (token : String) :
    (∀ e, TokenUtils.verifyToken env now token = .error e →
      e = JsError.plain "Invalid token") ∧
    (∀ c, TokenUtils.verifyToken env now token = .ok c ↔ jwt.verify now token env = .ok c) ∧
    (∀ e, jwt.verify now token env = .error e →
      TokenUtils.verifyToken env now token = .error (JsError.plain "Invalid token") ∧
      (e = TokenExpiredError ∨ e.name = "JsonWebTokenError")) ∧
    TokenExpiredError.name ≠ "JsonWebTokenError" := by
  refine ⟨?_, ?_, ?_, by decide⟩
  · intro e h
    unfold TokenUtils.verifyToken at h
    cases hv : jwt.verify now token env with
    | ok c => simp [hv] at h
    | error e' =>
      simp only [hv, Except.error.injEq] at h
      exact h.symm
  · intro c
    unfold TokenUtils.verifyToken
    cases hv : jwt.verify now token env with
    | ok c' => simp
    | error e' => simp
  · intro e h
    refine ⟨?_, verify_error_cases now token env e h⟩
    simp [TokenUtils.verifyToken, h]

end KickOff

/-! ## Who touches the revocation store -/

namespace KickOff

theorem applyAdd_down (r : Redis) (c : AddCall) (h : r.up = false) : applyAdd r c = r := by
  unfold applyAdd TokenBlacklistService.add Redis.set
  cases c.token with
  | none => rfl
  | some t =>
    by_cases ht : t = ""
    · simp [ht]
    · simp [ht, h]

theorem applyAdd_eq_exec (r : Redis) (c : AddCall) :
    applyAdd r c =
      Redis.execAll r c.time (TokenBlacklistService.addCmds c.token c.ttlSeconds) := by
  unfold applyAdd TokenBlacklistService.add TokenBlacklistService.addCmds Redis.execAll
  cases c.token with
  | none => rfl
  | some t =>
    by_cases ht : t = ""
    · simp [ht]
    · simp [ht, Redis.exec]

theorem execAll_gets (r : Redis) (now : Nat) (cmds : List RedisCmd)
    (h : ∀ c ∈ cmds, ∃ k, c = RedisCmd.get k) : Redis.execAll r now cmds = r := by
  induction cmds with
  | nil => rfl
  | cons c cs ih =>
    obtain ⟨k, hk⟩ := h c (List.mem_cons_self _ _)
    subst hk
    exact ih (fun c hc => h c (List.mem_cons_of_mem _ hc))

theorem gateCmds_gets (calls : List GateCall) :
    ∀ c ∈ gateCmds calls, ∃ k, c = RedisCmd.get k := by
  induction calls with
  | nil => simp [gateCmds]
  | cons a as ih =>
    intro c hc
    simp only [gateCmds, List.mem_append] at hc
    rcases hc with hc | hc
    · cases a with
      | isBlacklisted t =>
        by_cases ht : t = ""
        · simp [GateCall.cmds, TokenBlacklistService.isBlacklistedCmds, ht] at hc
        · simp only [GateCall.cmds, TokenBlacklistService.isBlacklistedCmds, if_neg ht,
            List.mem_singleton] at hc
          exact ⟨_, hc⟩
      | jwtVerify t => simp [GateCall.cmds] at hc
    · exact ih c hc

theorem access_ne_refresh (env : Option String) (t0 : Nat) (user : User) (pair : TokenPair)
    (hpair : AuthService.generateTokenPair env t0 user = .ok pair) :
    pair.accessToken ≠ pair.refreshToken := by
  rw [generateTokenPair_eq] at hpair
  cases hpair
  intro h
  have hd := congrArg SignedJwt.decode h
  simp only [decode_encode, Option.some.injEq, SignedJwt.mk.injEq, Claims.mk.injEq] at hd
  omega

theorem refreshToken_of_issued (env : Option String) (db : List User) (user : User)
    (t0 now : Nat) (pair : TokenPair)
    (hpair : AuthService.generateTokenPair env t0 user = .ok pair) :
    AuthService.refreshToken env db now pair.refreshToken =
      if now ≥ t0 + 604800 then .error (JsError.plain "Invalid token")
      else
        match User.findById db user._id with
        | none => .error (JsError.plain "Invalid token")
        | some u =>
          if u.accountStatus.isActive then AuthService.generateTokenPair env now u
          else .error (JsError.plain "Invalid token") := by
  rw [generateTokenPair_eq] at hpair
  cases hpair
  unfold AuthService.refreshToken
  have hv := verify_encode now
    { claims := { sub := user._id, role := user.accountStatus.role, iat := t0,
                  exp := t0 + 604800 },
      key := JWT_SECRET env } (JWT_SECRET_ne_empty env)
  simp only at hv
  rw [hv]
  by_cases hexp : now ≥ t0 + 604800
  · simp [hexp]
  · simp only [hexp, if_false]
    cases User.findById db user._id with
    | none => rfl
    | some u =>
      by_cases hact : u.accountStatus.isActive = true
      · simp [hact, generateTokenPair_eq]
      · simp [hact]

/-- C24: `AuthService.refreshToken` sends no command to the revocation store: for
every token and any two store states its result is the same, and the store is
left as it was. In particular, after the access token of a pair has been logged
out through `AuthController.logout`, a refresh with the pair's refresh token
(unexpired, subject active) still returns a new pair, and the revocation status
of the refresh token is what it was before that logout. -/
theorem C24_refresh_ignores_store (env : Option String) (db : List User) (r1 r2 : Redis)
    (now : Nat) (token : String) :
    (AuthService.refreshTokenRun env db r1 now token).result =
      (AuthService.refreshTokenRun env db r2 now token).result ∧
    (AuthService.refreshTokenRun env db r1 now token).redis = r1 ∧
    (AuthService.refreshTokenRun env db r1 now token).cmds = [] ∧
    ∀ (user u : User) (t0 t1 : Nat) (pair : TokenPair),
      AuthService.generateTokenPair env t0 user = .ok pair →
      User.findById db user._id = some u → u.accountStatus.isActive = true →
      now < t0 + 604800 →
      (∃ newPair,
        (AuthService.refreshTokenRun env db
          (AuthController.logout r1 t1 (some ("Bearer " ++ pair.accessToken))).redis now
          pair.refreshToken).result = .ok newPair ∧
        AuthService.generateTokenPair env now u = .ok newPair) ∧
      ∀ n, TokenBlacklistService.isBlacklisted
          (AuthController.logout r1 t1 (some ("Bearer " ++ pair.accessToken))).redis n
          (some pair.refreshToken) =
        TokenBlacklistService.isBlacklisted r1 n (some pair.refreshToken) := by
  refine ⟨rfl, rfl, rfl, ?_⟩
  intro user u t0 t1 pair hpair hfind hact hlt
  have hne := access_ne_refresh env t0 user pair hpair
  have href := refreshToken_of_issued env db user t0 now pair hpair
  constructor
  · refine ⟨_, ?_, generateTokenPair_eq env now u⟩
    show AuthService.refreshToken env db now pair.refreshToken = _
    rw [href, hfind]
    have : ¬ now ≥ t0 + 604800 := by omega
    simp [this, hact, generateTokenPair_eq]
  · intro n
    have hpair' := hpair
    rw [generateTokenPair_eq] at hpair'
    cases hpair'
    rw [logout_redis, logoutToken_bearer]
    by_cases hup : r1.up = true
    · have hrne := encode_ne_empty
        { claims := { sub := user._id, role := user.accountStatus.role, iat := t0,
                      exp := t0 + 604800 },
          key := JWT_SECRET env }
      rw [isBlacklisted_of_find _ n _ ((applyAdd_up _ _).trans hup) hrne,
        isBlacklisted_of_find _ n _ hup hrne, find_applyAdd r1 _ _ hup hrne]
      have hne' : ¬ (some (SignedJwt.encode
          { claims := { sub := user._id, role := user.accountStatus.role, iat := t0,
                        exp := t0 + 900 },
            key := JWT_SECRET env }) = some (SignedJwt.encode
          { claims := { sub := user._id, role := user.accountStatus.role, iat := t0,
                        exp := t0 + 604800 },
            key := JWT_SECRET env })) := fun h => hne (Option.some.inj h)
      simp only [hne', if_false]
    · have hdown : r1.up = false := by simpa using hup
      rw [applyAdd_down r1 _ hdown]

/-- C25: the gatekeeper never mutates the revocation store: for every request,
secret, second and store state, every command it sends to the store is a `GET`,
and the store after those commands is the store before, whatever the outcome of
the request. -/
theorem C25_gatekeeper_leaves_store (env : Option String) (r : Redis) (now : Nat)
    (authHeader : Option String) :
    (∀ c ∈ gateCmds (authenticateToken env r now authHeader).calls,
      ∃ k, c = RedisCmd.get k) ∧
    Redis.execAll r now (gateCmds (authenticateToken env r now authHeader).calls) = r ∧
    (gateCmds (authenticateToken env r now authHeader).calls =
      if truthy (headerToken authHeader) then
        [RedisCmd.get (blacklistKey ((headerToken authHeader).getD ""))]
      else []) := by
  refine ⟨gateCmds_gets _, execAll_gets r now _ (gateCmds_gets _), ?_⟩
  cases hh : headerToken authHeader with
  | none => simp [authenticateToken, hh, truthy, gateCmds]
  | some token =>
    by_cases hne : token = ""
    · simp [authenticateToken, hh, hne, truthy, gateCmds]
    · cases hbl : TokenBlacklistService.isBlacklisted r now (some token) with
      | error e =>
        simp [authenticateToken, hh, hne, hbl, truthy, gateCmds, GateCall.cmds,
          TokenBlacklistService.isBlacklistedCmds]
      | ok b =>
        cases b with
        | true =>
          simp [authenticateToken, hh, hne, hbl, truthy, gateCmds, GateCall.cmds,
            TokenBlacklistService.isBlacklistedCmds]
        | false =>
          cases hv : jwt.verify now token env with
          | error e =>
            simp [authenticateToken, hh, hne, hbl, hv, truthy, gateCmds, GateCall.cmds,
              TokenBlacklistService.isBlacklistedCmds]
          | ok d =>
            simp [authenticateToken, hh, hne, hbl, hv, truthy, gateCmds, GateCall.cmds,
              TokenBlacklistService.isBlacklistedCmds]

end KickOff

/-! ## Issued tokens at the gatekeeper -/

namespace KickOff

theorem gate_of_issued_token (env : Option String) (r : Redis) (now : Nat) (t : SignedJwt)
    (hkey : t.key = JWT_SECRET env)
    (hbl : TokenBlacklistService.isBlacklisted r now (some t.encode) = .ok false) :
    authenticateToken env r now (some ("Bearer " ++ t.encode)) =
      if truthy env then
        if now ≥ t.claims.exp then
          { response := some ⟨403, ApiResponse.error "Token has expired"⟩,
            nextCalled := false, user := none, thrown := none,
            calls := [.isBlacklisted t.encode, .jwtVerify t.encode] }
        else
          { response := none, nextCalled := true, user := some t.claims, thrown := none,
            calls := [.isBlacklisted t.encode, .jwtVerify t.encode] }
      else
        { response := some ⟨403, ApiResponse.error "Invalid token"⟩,
          nextCalled := false, user := none, thrown := none,
          calls := [.isBlacklisted t.encode, .jwtVerify t.encode] } := by
  rw [gate_of_clean_token env r now _ t.encode (headerToken_bearer t) (encode_ne_empty t) hbl]
  by_cases henv : truthy env = true
  · have hsec : env = some t.key := by rw [hkey, JWT_SECRET_of_truthy env henv]
    have hv := verify_encode now t (hkey ▸ JWT_SECRET_ne_empty env)
    rw [← hsec] at hv
    rw [hv]
    by_cases hexp : now ≥ t.claims.exp
    · simp [henv, hexp, TokenExpiredError]
    · simp [henv, hexp]
  · have hfalse : truthy env = false := by simpa using henv
    rw [verify_without_secret now t env hfalse]
    simp [hfalse, JsonWebTokenError]

/-- C26, as stated, fails: with `JWT_SECRET` set to `changeme`, the refresh token
issued to `sampleUser` at second 1000, presented as bearer token at second 1100,
passes the gatekeeper: `next` is called and the user is attached. -/
theorem C26_counterexample :
    AuthService.generateTokenPair (some "changeme") 1000 sampleUser =
      .ok { accessToken := sampleAccessToken, refreshToken := sampleRefreshToken } ∧
    authenticateToken (some "changeme") emptyStore 1100
        (some ("Bearer " ++ sampleRefreshToken)) =
      { response := none, nextCalled := true,
        user := some { sub := "u1", role := some "user", iat := 1000, exp := 605800 },
        thrown := none,
        calls := [.isBlacklisted sampleRefreshToken, .jwtVerify sampleRefreshToken] } := by
  decide

/-- C26, amended: the gatekeeper treats a refresh token issued by
`generateTokenPair` like any other signed token: a request that presents it as
bearer token, while the store does not report it revoked, is allowed exactly
when `JWT_SECRET` is set and the token has not expired (before second
`t0 + 604800`), and is then given the token's claims as user; otherwise it is
rejected and `next` is not called. -/
theorem C26_refresh_token_at_gatekeeper (env : Option String) (r : Redis) (user : User)
    (t0 now : Nat) (pair : TokenPair)
    (hpair : AuthService.generateTokenPair env t0 user = .ok pair)
    (hbl : TokenBlacklistService.isBlacklisted r now (some pair.refreshToken) = .ok false) :
    ((authenticateToken env r now (some ("Bearer " ++ pair.refreshToken))).nextCalled = true ↔
      truthy env = true ∧ now < t0 + 604800) ∧
    ((authenticateToken env r now (some ("Bearer " ++ pair.refreshToken))).nextCalled = true →
      (authenticateToken env r now (some ("Bearer " ++ pair.refreshToken))).user =
        some { sub := user._id, role := user.accountStatus.role, iat := t0,
               exp := t0 + 604800 }) := by
  rw [generateTokenPair_eq] at hpair
  cases hpair
  rw [gate_of_issued_token env r now _ rfl hbl]
  by_cases henv : truthy env = true
  · by_cases hexp : now ≥ t0 + 604800
    · have hnlt : ¬ now < t0 + 604800 := by omega
      simp [henv, hexp, hnlt]
    · have hlt : now < t0 + 604800 := by omega
      simp [henv, hexp, hlt]
  · simp [henv]

theorem C26_refresh_token_at_gatekeeper_witness :
    (authenticateToken (some "changeme") emptyStore 1100
        (some ("Bearer " ++ sampleRefreshToken))).nextCalled = true ↔
      truthy (some "changeme") = true ∧ 1100 < 1000 + 604800 :=
  (C26_refresh_token_at_gatekeeper (some "changeme") emptyStore sampleUser 1000 1100
    { accessToken := sampleAccessToken, refreshToken := sampleRefreshToken }
    (by decide) (by decide)).1

theorem gate_allows_access_token (env : Option String) (r : Redis) (user : User)
    (t0 now : Nat) (pair : TokenPair) (henv : truthy env = true)
    (hpair : AuthService.generateTokenPair env t0 user = .ok pair)
    (hbl : TokenBlacklistService.isBlacklisted r now (some pair.accessToken) = .ok false)
    (hlt : now < t0 + 900) :
    authenticateToken env r now (some ("Bearer " ++ pair.accessToken)) =
      { response := none, nextCalled := true,
        user := some { sub := user._id, role := user.accountStatus.role, iat := t0,
                       exp := t0 + 900 },
        thrown := none,
        calls := [.isBlacklisted pair.accessToken, .jwtVerify pair.accessToken] } := by
  rw [generateTokenPair_eq] at hpair
  cases hpair
  rw [gate_of_issued_token env r now _ rfl hbl]
  have hexp : ¬ now ≥ t0 + 900 := by omega
  simp [henv, hexp]

/-- C27: the code at the failing input. With `JWT_SECRET` unset, login of
`sampleUser` at second 1000 returns an access token signed with the fallback
secret `changeme`; at second 1100 the token is unexpired and not revoked, yet the
gatekeeper, which verifies with the unset `process.env.JWT_SECRET`, answers 403
"Invalid token" and does not call `next`. -/
theorem C27_unset_secret_rejects_issued_token :
    (AuthService.login none [sampleUser] sampleCompare 1000 "a@x.com" "Abcdef12").map
        (fun res => res.tokens.accessToken) = .ok sampleAccessToken ∧
    jwt.verify 1100 sampleAccessToken (some (JWT_SECRET none)) =
      .ok { sub := "u1", role := some "user", iat := 1000, exp := 1900 } ∧
    TokenBlacklistService.isBlacklisted emptyStore 1100 (some sampleAccessToken) = .ok false ∧
    authenticateToken none emptyStore 1100 (some ("Bearer " ++ sampleAccessToken)) =
      { response := some ⟨403, ApiResponse.error "Invalid token"⟩,
        nextCalled := false, user := none, thrown := none,
        calls := [.isBlacklisted sampleAccessToken, .jwtVerify sampleAccessToken] } := by
  decide

end KickOff

/-! ## Slugs -/

namespace KickOff

theorem slugChar_kept (c : Char) (h : isLowerAlnum c = true ∨ c = '-') : keptBySlug c = true := by
  rcases h with h | h
  · simp [keptBySlug, h]
  · simp [keptBySlug, h]

theorem slugChar_not_space (c : Char) (h : isLowerAlnum c = true ∨ c = '-') :
    isJsSpace c = false := by
  rcases h with h | h
  · simp only [isLowerAlnum, Bool.or_eq_true, Bool.and_eq_true, decide_eq_true_eq] at h
    simp only [isJsSpace, Bool.or_eq_false_iff, Bool.and_eq_false_iff, decide_eq_false_iff_not]
    omega
  · subst h
    decide

theorem mem_spacesToHyphen (b : Bool) (l : List Char) :
    ∀ c ∈ spacesToHyphen b l, (c ∈ l ∧ isJsSpace c = false) ∨ c = '-' := by
  induction l generalizing b with
  | nil => simp [spacesToHyphen]
  | cons a as ih =>
    intro c hc
    unfold spacesToHyphen at hc
    by_cases ha : isJsSpace a = true
    · cases b with
      | true =>
        simp only [ha, if_true] at hc
        rcases ih true c hc with h | h
        · exact Or.inl ⟨List.mem_cons_of_mem _ h.1, h.2⟩
        · exact Or.inr h
      | false =>
        simp only [ha, if_true, Bool.false_eq_true, if_false, List.mem_cons] at hc
        rcases hc with hc | hc
        · exact Or.inr hc
        · rcases ih true c hc with h | h
          · exact Or.inl ⟨List.mem_cons_of_mem _ h.1, h.2⟩
          · exact Or.inr h
    · simp only [ha, Bool.false_eq_true, if_false, List.mem_cons] at hc
      rcases hc with hc | hc
      · subst hc
        exact Or.inl ⟨List.mem_cons_self _ _, by simpa using ha⟩
      · rcases ih false c hc with h | h
        · exact Or.inl ⟨List.mem_cons_of_mem _ h.1, h.2⟩
        · exact Or.inr h

theorem mem_collapseHyphens (b : Bool) (l : List Char) :
    ∀ c ∈ collapseHyphens b l, c ∈ l := by
  induction l generalizing b with
  | nil => simp [collapseHyphens]
  | cons a as ih =>
    intro c hc
    unfold collapseHyphens at hc
    by_cases ha : a = '-'
    · cases b with
      | true =>
        simp only [ha, if_true] at hc
        exact List.mem_cons_of_mem _ (ih true c hc)
      | false =>
        simp only [ha, if_true, Bool.false_eq_true, if_false, List.mem_cons] at hc
        rcases hc with hc | hc
        · rw [hc, ha]
          exact List.mem_cons_self _ _
        · exact List.mem_cons_of_mem _ (ih true c hc)
    · simp only [ha, if_false, List.mem_cons] at hc
      rcases hc with hc | hc
      · rw [hc]
        exact List.mem_cons_self _ _
      · exact List.mem_cons_of_mem _ (ih false c hc)

theorem chain_collapseHyphens (b : Bool) (l : List Char) :
    List.Chain' (fun x y => ¬ (x = '-' ∧ y = '-')) (collapseHyphens b l) ∧
    (b = true → (collapseHyphens b l).head? ≠ some '-') := by
  induction l generalizing b with
  | nil => simp [collapseHyphens]
  | cons a as ih =>
    unfold collapseHyphens
    by_cases ha : a = '-'
    · cases b with
      | true =>
        simp only [ha, if_true]
        exact ⟨(ih true).1, fun _ => (ih true).2 rfl⟩
      | false =>
        simp only [ha, if_true, Bool.false_eq_true, if_false, false_implies, and_true]
        rw [List.chain'_cons']
        refine ⟨?_, (ih true).1⟩
        intro y hy h
        have hy' : (collapseHyphens true as).head? = some y := by simpa using hy
        rw [h.2] at hy'
        exact (ih true).2 rfl hy'
    · simp only [ha, if_false, List.head?_cons, ne_eq, Option.some.injEq, not_false_eq_true,
        implies_true, and_true]
      rw [List.chain'_cons']
      refine ⟨?_, (ih false).1⟩
      intro y _ h
      exact ha h.1

theorem collapseHyphens_id (b : Bool) (l : List Char)
    (hchain : List.Chain' (fun x y => ¬ (x = '-' ∧ y = '-')) l)
    (hhead : b = true → l.head? ≠ some '-') : collapseHyphens b l = l := by
  induction l generalizing b with
  | nil => rfl
  | cons a as ih =>
    rw [List.chain'_cons'] at hchain
    unfold collapseHyphens
    by_cases ha : a = '-'
    · cases b with
      | true =>
        exact absurd (by rw [ha]; rfl) (hhead rfl)
      | false =>
        simp only [ha, if_true, Bool.false_eq_true, if_false, List.cons.injEq, true_and]
        refine ih true hchain.2 (fun _ h => ?_)
        exact hchain.1 '-' (by simpa using h) ⟨ha, rfl⟩
    · simp only [ha, if_false, List.cons.injEq, true_and]
      exact ih false hchain.2 (fun h => by cases h)

theorem spacesToHyphen_id (b : Bool) (l : List Char) (h : ∀ c ∈ l, isJsSpace c = false) :
    spacesToHyphen b l = l := by
  induction l generalizing b with
  | nil => rfl
  | cons a as ih =>
    have ha : isJsSpace a = false := h a (List.mem_cons_self _ _)
    unfold spacesToHyphen
    simp only [ha, Bool.false_eq_true, if_false, List.cons.injEq, true_and]
    exact ih false (fun c hc => h c (List.mem_cons_of_mem _ hc))

theorem stripLeadingHyphen_suffix (l : List Char) : stripLeadingHyphen l <:+ l := by
  cases l with
  | nil => exact List.suffix_refl _
  | cons a as =>
    unfold stripLeadingHyphen
    by_cases ha : a = '-'
    · simp only [ha, if_true]
      exact List.suffix_cons _ _
    · simp only [ha, if_false]
      exact List.suffix_refl _

theorem head_stripLeadingHyphen (l : List Char)
    (hchain : List.Chain' (fun x y => ¬ (x = '-' ∧ y = '-')) l) :
    (stripLeadingHyphen l).head? ≠ some '-' := by
  cases l with
  | nil => simp [stripLeadingHyphen]
  | cons a as =>
    rw [List.chain'_cons'] at hchain
    unfold stripLeadingHyphen
    by_cases ha : a = '-'
    · simp only [ha, if_true]
      intro h
      exact hchain.1 '-' (by simpa using h) ⟨ha, rfl⟩
    · simp [ha]

theorem getLast_stripLeadingHyphen (l : List Char) (x : Char)
    (h : (stripLeadingHyphen l).getLast? = some x) : l.getLast? = some x := by
  cases l with
  | nil => simp [stripLeadingHyphen] at h
  | cons a as =>
    unfold stripLeadingHyphen at h
    by_cases ha : a = '-'
    · simp only [ha, if_true] at h
      cases as with
      | nil => simp at h
      | cons b bs =>
        rw [List.getLast?_cons_cons]
        exact h
    · simpa only [ha, if_false] using h

theorem stripLeadingHyphen_id (l : List Char) (h : l.head? ≠ some '-') :
    stripLeadingHyphen l = l := by
  cases l with
  | nil => rfl
  | cons a as =>
    have ha : a ≠ '-' := fun e => h (by rw [e]; rfl)
    simp [stripLeadingHyphen, ha]

theorem chain_reverse_hyphen (l : List Char)
    (h : List.Chain' (fun x y => ¬ (x = '-' ∧ y = '-')) l) :
    List.Chain' (fun x y => ¬ (x = '-' ∧ y = '-')) l.reverse := by
  rw [List.chain'_reverse]
  refine h.imp ?_
  intro a b hab hba
  exact hab ⟨hba.2, hba.1⟩

end KickOff

namespace KickOff

theorem asciiLower_slug (s : String) (h : ∀ c ∈ s.data, isLowerAlnum c = true ∨ c = '-') :
    asciiLower s = s := by
  have hmap : ∀ l : List Char, (∀ c ∈ l, isLowerAlnum c = true ∨ c = '-') →
      l.map Char.toLower = l := by
    intro l hl
    induction l with
    | nil => rfl
    | cons a as ih =>
      have ha : Char.toLower a = a := by
        rcases hl a (List.mem_cons_self _ _) with h | h
        · simp only [isLowerAlnum, Bool.or_eq_true, Bool.and_eq_true, decide_eq_true_eq] at h
          have hn : ¬ (a.toNat ≥ 65 ∧ a.toNat ≤ 90) := by omega
          simp [Char.toLower, hn]
        · subst h
          decide
      rw [List.map_cons, ha, ih (fun c hc => hl c (List.mem_cons_of_mem _ hc))]
  unfold asciiLower
  rw [hmap s.data h]

theorem slug_shape (l : List Char) (hk : ∀ c ∈ l, keptBySlug c = true) :
    (∀ c ∈ stripEdgeHyphens (collapseHyphens false (spacesToHyphen false l)),
      isLowerAlnum c = true ∨ c = '-') ∧
    List.Chain' (fun x y => ¬ (x = '-' ∧ y = '-'))
      (stripEdgeHyphens (collapseHyphens false (spacesToHyphen false l))) ∧
    (stripEdgeHyphens (collapseHyphens false (spacesToHyphen false l))).head? ≠ some '-' ∧
    (stripEdgeHyphens (collapseHyphens false (spacesToHyphen false l))).getLast? ≠ some '-' := by
  have hC : ∀ c ∈ collapseHyphens false (spacesToHyphen false l),
      isLowerAlnum c = true ∨ c = '-' := by
    intro c hc
    rcases mem_spacesToHyphen false l c (mem_collapseHyphens false _ c hc) with ⟨hmem, hsp⟩ | h
    · have hkept := hk c hmem
      simp only [keptBySlug, Bool.or_eq_true, decide_eq_true_eq] at hkept
      rcases hkept with (h | h) | h
      · exact Or.inl h
      · rw [hsp] at h
        cases h
      · exact Or.inr h
    · exact Or.inr h
  have hchainC := (chain_collapseHyphens false (spacesToHyphen false l)).1
  have hchainA := hchainC.suffix (stripLeadingHyphen_suffix _)
  have hheadA := head_stripLeadingHyphen _ hchainC
  have hchainAr := chain_reverse_hyphen _ hchainA
  have hchainB := hchainAr.suffix (stripLeadingHyphen_suffix _)
  have hheadB := head_stripLeadingHyphen _ hchainAr
  unfold stripEdgeHyphens
  refine ⟨?_, chain_reverse_hyphen _ hchainB, ?_, ?_⟩
  · intro c hc
    rw [List.mem_reverse] at hc
    have h1 := (stripLeadingHyphen_suffix _).subset hc
    rw [List.mem_reverse] at h1
    exact hC c ((stripLeadingHyphen_suffix _).subset h1)
  · rw [List.head?_reverse]
    intro h
    have h1 := getLast_stripLeadingHyphen _ _ h
    rw [List.getLast?_reverse] at h1
    exact hheadA h1
  · rw [List.getLast?_reverse]
    exact hheadB

theorem slug_fixed (e : List Char) (hchars : ∀ c ∈ e, isLowerAlnum c = true ∨ c = '-')
    (hchain : List.Chain' (fun x y => ¬ (x = '-' ∧ y = '-')) e)
    (hhead : e.head? ≠ some '-') (hlast : e.getLast? ≠ some '-') :
    stripEdgeHyphens (collapseHyphens false (spacesToHyphen false (e.filter keptBySlug))) =
      e := by
  have hfilter : e.filter keptBySlug = e :=
    List.filter_eq_self.2 (fun c hc => slugChar_kept c (hchars c hc))
  rw [hfilter, spacesToHyphen_id false e (fun c hc => slugChar_not_space c (hchars c hc)),
    collapseHyphens_id false e hchain (fun h => by cases h)]
  unfold stripEdgeHyphens
  rw [stripLeadingHyphen_id e hhead,
    stripLeadingHyphen_id e.reverse (by rw [List.head?_reverse]; exact hlast),
    List.reverse_reverse]

/-- C28: for every title, the slug of `News.generateSlug` is made of the
characters `a-z`, `0-9` and `-` only, holds no two hyphens in a row, and neither
starts nor ends with a hyphen; and, `toLowerCase` leaving strings of those
characters as they are, generating the slug of a generated slug returns it
unchanged. -/
theorem C28_news_slug_shape (toLowerCase : String → String) (title : String) :
    (∀ c ∈ (News.generateSlug toLowerCase title).data, isLowerAlnum c = true ∨ c = '-') ∧
    ¬ ['-', '-'] <:+: (News.generateSlug toLowerCase title).data ∧
    (News.generateSlug toLowerCase title).data.head? ≠ some '-' ∧
    (News.generateSlug toLowerCase title).data.getLast? ≠ some '-' ∧
    ((∀ s : String, (∀ c ∈ s.data, isLowerAlnum c = true ∨ c = '-') → toLowerCase s = s) →
      News.generateSlug toLowerCase (News.generateSlug toLowerCase title) =
        News.generateSlug toLowerCase title) := by
  have hk : ∀ c ∈ (toLowerCase title).data.filter keptBySlug, keptBySlug c = true :=
    fun c hc => (List.mem_filter.1 hc).2
  obtain ⟨hchars, hchain, hhead, hlast⟩ := slug_shape _ hk
  refine ⟨hchars, ?_, hhead, hlast, ?_⟩
  · intro hinfix
    have := hchain.infix hinfix
    rw [List.chain'_pair] at this
    exact this ⟨rfl, rfl⟩
  · intro hlower
    have hfix := hlower (News.generateSlug toLowerCase title) hchars
    show String.mk _ = News.generateSlug toLowerCase title
    rw [hfix]
    show String.mk (stripEdgeHyphens (collapseHyphens false (spacesToHyphen false
      ((News.generateSlug toLowerCase title).data.filter keptBySlug)))) = _
    have hsame := slug_fixed (News.generateSlug toLowerCase title).data hchars hchain hhead
      hlast
    rw [hsame]

theorem C28_news_slug_shape_witness :
    News.generateSlug asciiLower "  Hello,   World -- 2024!  " = "hello-world-2024" ∧
    News.generateSlug asciiLower
        (News.generateSlug asciiLower "  Hello,   World -- 2024!  ") =
      News.generateSlug asciiLower "  Hello,   World -- 2024!  " :=
  ⟨by decide,
   (C28_news_slug_shape asciiLower "  Hello,   World -- 2024!  ").2.2.2.2 asciiLower_slug⟩

end KickOff

namespace KickOff

theorem dropWhile_of_none (l : List Char) (h : ∀ c ∈ l, isJsSpace c = false) :
    l.dropWhile isJsSpace = l := by
  cases l with
  | nil => rfl
  | cons a as => simp [List.dropWhile, h a (List.mem_cons_self _ _)]

theorem league_trim_changes_nothing (toLowerCase : String → String) (name : String) :
    League.slugOf toLowerCase name =
      String.mk (collapseHyphens false (spacesToHyphen false
        ((toLowerCase name).data.filter keptBySlug))) := by
  have hC : ∀ c ∈ collapseHyphens false (spacesToHyphen false
      ((toLowerCase name).data.filter keptBySlug)), isJsSpace c = false := by
    intro c hc
    rcases mem_spacesToHyphen false _ c (mem_collapseHyphens false _ c hc) with ⟨_, hsp⟩ | h
    · exact hsp
    · subst h
      decide
  unfold League.slugOf jsTrim
  rw [dropWhile_of_none _ hC,
    dropWhile_of_none _ (fun c hc => hC c (List.mem_reverse.1 hc)), List.reverse_reverse]

/-- C29: the code at the failing input. For the league names `Serie A -` and
`! Cup` the pre-save hook generates the slugs `serie-a-` and `-cup`, which end
and start with a hyphen: `.trim('-')` removes white space only, and none is
left. `News.generateSlug`, which strips with a regular expression, gives
`serie-a` and `cup` for the same strings. -/
theorem C29_league_slug_keeps_edge_hyphens :
    League.preSave asciiLower true none "Serie A -" = some "serie-a-" ∧
    (League.slugOf asciiLower "Serie A -").data.getLast? = some '-' ∧
    League.preSave asciiLower true none "! Cup" = some "-cup" ∧
    (League.slugOf asciiLower "! Cup").data.head? = some '-' ∧
    News.generateSlug asciiLower "Serie A -" = "serie-a" ∧
    News.generateSlug asciiLower "! Cup" = "cup" := by
  decide

theorem addMatchResult_known_results (team : Team) (result : String)
    (goalsFor goalsAgainst : Nat)
    (hresult : result = "win" ∨ result = "draw" ∨ result = "loss")
    (htotal : team.statistics.totalMatches =
      team.statistics.wins + team.statistics.draws + team.statistics.losses)
    (hpoints : team.statistics.points = 3 * team.statistics.wins + team.statistics.draws) :
    (team.addMatchResult result goalsFor goalsAgainst).statistics.totalMatches =
      (team.addMatchResult result goalsFor goalsAgainst).statistics.wins +
      (team.addMatchResult result goalsFor goalsAgainst).statistics.draws +
      (team.addMatchResult result goalsFor goalsAgainst).statistics.losses ∧
    (team.addMatchResult result goalsFor goalsAgainst).statistics.points =
      3 * (team.addMatchResult result goalsFor goalsAgainst).statistics.wins +
      (team.addMatchResult result goalsFor goalsAgainst).statistics.draws := by
  unfold Team.addMatchResult
  rcases hresult with h | h | h
  · subst h
    simp only [if_true]
    split <;> simp only [] <;> omega
  · subst h
    have h1 : ¬ ("draw" = "win") := by decide
    simp only [h1, if_false, if_true]
    split <;> simp only [] <;> omega
  · subst h
    have h1 : ¬ ("loss" = "win") := by decide
    have h2 : ¬ ("loss" = "draw") := by decide
    simp only [h1, h2, if_false, if_true]
    split <;> simp only [] <;> omega

/-- C30: the code at the failing input. A team that has not played satisfies
both invariants; after `addMatchResult('WIN', 1, 0)`, whose result string is
none of `win`, `draw`, `loss`, the match is counted (`totalMatches = 1`) but no
win, draw or loss is, so `totalMatches` no longer equals their sum. -/
theorem C30_unknown_result_breaks_total :
    freshTeam.statistics.totalMatches =
      freshTeam.statistics.wins + freshTeam.statistics.draws + freshTeam.statistics.losses ∧
    freshTeam.statistics.points =
      3 * freshTeam.statistics.wins + freshTeam.statistics.draws ∧
    (freshTeam.addMatchResult "WIN" 1 0).statistics =
      { totalMatches := 1, wins := 0, draws := 0, losses := 0, goalsFor := 1,
        goalsAgainst := 0, points := 0 } ∧
    (freshTeam.addMatchResult "WIN" 1 0).statistics.totalMatches ≠
      (freshTeam.addMatchResult "WIN" 1 0).statistics.wins +
      (freshTeam.addMatchResult "WIN" 1 0).statistics.draws +
      (freshTeam.addMatchResult "WIN" 1 0).statistics.losses := by
  decide

end KickOff
